import Mathlib

/-!
DIO and Port drivers (MCAL): shallow embedding.

Source files embedded here:

* `MCAL/DIO_Driver/Dio.h`, `MCAL/DIO_Driver/Dio.c`
* `MCAL/Port_Driver/Port.h`, `MCAL/Port_Driver/Port.c`, `MCAL/Port_Driver/Port_Cfg.h`,
  `MCAL/Port_Driver/Port_Cfg.c`

Conventions.

* C integers are natural numbers; a value stored into a `uint8`/`uint16` object is
  reduced with `toUint8`/`toUint16`.
* A pointer to a GPIO block is `Option GPIO_Port`, `none` being `NULL_PTR`.
* Code that may dereference `NULL_PTR` or read past the end of an array returns an
  `Option`; `none` is that undefined access.
* The microcontroller is a value of `Mcu`: the input and output data words of the four
  GPIO blocks, and the list of hardware write calls made so far.
-/

/-! ## Std_Type -/

/-- Conversion to `uint8`. -/
def toUint8 (n : Nat) : Nat := n % 256

/-- Conversion to `uint16`. -/
def toUint16 (n : Nat) : Nat := n % 65536

/-- Bit pattern of the C expression `~x` on a (promoted) 32-bit `int`. -/
def cNot (x : Nat) : Nat := 4294967295 ^^^ x

/-- Constant `STD_LOW` of `Dio.h`. -/
def STD_LOW : Nat := 0

/-- Constant `STD_HIGH` of `Dio.h`. -/
def STD_HIGH : Nat := 1

/-! ## The hardware: four GPIO blocks -/

/-- The four GPIO blocks `GPIOA` .. `GPIOD` a non-null `GPIO_TypeDef *` can point to. -/
inductive GPIO_Port where
  | GPIOA
  | GPIOB
  | GPIOC
  | GPIOD
deriving DecidableEq, Repr

/-- Port number of a block: `GPIO_PORT_A 0`, `GPIO_PORT_B 1`, `GPIO_PORT_C 2`,
`GPIO_PORT_D 3` (`Dio.h`). -/
def GPIO_Port.index : GPIO_Port → Nat
  | .GPIOA => 0
  | .GPIOB => 1
  | .GPIOC => 2
  | .GPIOD => 3

/-- Data registers of one GPIO block: the input data word and the output data word. -/
structure GPIO_TypeDef where
  IDR : Nat
  ODR : Nat
deriving DecidableEq, Repr

/-- Electrical modes `Port_Deploy_pin` can select. -/
inductive GPIOMode_TypeDef where
  | GPIO_Mode_IPD
  | GPIO_Mode_IPU
  | GPIO_Mode_Out_OD
  | GPIO_Mode_Out_PP
deriving DecidableEq, Repr

/-- The local `GPIO_InitTypeDef GPIO_InitStruct`; `GPIO_Mode` is `none` while the field
has not been assigned. -/
structure GPIO_InitTypeDef where
  GPIO_Pin : Nat
  GPIO_Speed : Nat
  GPIO_Mode : Option GPIOMode_TypeDef
deriving DecidableEq, Repr

/-- One hardware write call, as an instrumented register-access stub records it. -/
inductive HwCall where
  | ClockCmd (port : GPIO_Port)
  | Init (port : GPIO_Port) (cfg : GPIO_InitTypeDef)
  | WriteBit (port : GPIO_Port) (GPIO_Pin : Nat) (BitVal : Nat)
  | Write (port : GPIO_Port) (PortVal : Nat)
deriving DecidableEq, Repr

/-- State of the microcontroller peripherals the two drivers touch. -/
structure Mcu where
  A : GPIO_TypeDef
  B : GPIO_TypeDef
  C : GPIO_TypeDef
  D : GPIO_TypeDef
  calls : List HwCall
deriving DecidableEq, Repr

/-- Registers of one block. -/
def Mcu.port (hw : Mcu) : GPIO_Port → GPIO_TypeDef
  | .GPIOA => hw.A
  | .GPIOB => hw.B
  | .GPIOC => hw.C
  | .GPIOD => hw.D

/-- Store `v` into the output data register of block `p` and record the call `c`. -/
def Mcu.storeODR (hw : Mcu) (p : GPIO_Port) (v : Nat) (c : HwCall) : Mcu :=
  match p with
  | .GPIOA => { hw with A := { hw.A with ODR := v }, calls := hw.calls ++ [c] }
  | .GPIOB => { hw with B := { hw.B with ODR := v }, calls := hw.calls ++ [c] }
  | .GPIOC => { hw with C := { hw.C with ODR := v }, calls := hw.calls ++ [c] }
  | .GPIOD => { hw with D := { hw.D with ODR := v }, calls := hw.calls ++ [c] }

/-- Constant `Bit_RESET` of the peripheral library. -/
def Bit_RESET : Nat := 0

/-- Constant `Bit_SET` of the peripheral library. -/
def Bit_SET : Nat := 1

/-- Modelled from the spec: the register access primitive "read the current output-state
word" (`GPIO_ReadOutputData` of the peripheral library, not part of the sources): the
low 16 bits of the block's output data register. A null handle is an undefined access. -/
def GPIO_ReadOutputData (GPIOx : Option GPIO_Port) (hw : Mcu) : Option Nat :=
  match GPIOx with
  | none => none
  | some p => some (toUint16 (hw.port p).ODR)

/-- Modelled from the spec: the register access primitive "read the current input-state
word" restricted to the bits of `GPIO_Pin` (`GPIO_ReadInputDataBit` of the peripheral
library): `Bit_SET` when one of these bits is set in the input data register. -/
def GPIO_ReadInputDataBit (GPIOx : Option GPIO_Port) (GPIO_Pin : Nat) (hw : Mcu) :
    Option Nat :=
  match GPIOx with
  | none => none
  | some p => some (if (hw.port p).IDR &&& GPIO_Pin = 0 then Bit_RESET else Bit_SET)

/-- Modelled from the spec: the register access primitive "write a word to the
output-state register" (`GPIO_Write` of the peripheral library). -/
def GPIO_Write (GPIOx : Option GPIO_Port) (PortVal : Nat) (hw : Mcu) : Option Mcu :=
  match GPIOx with
  | none => none
  | some p => some (hw.storeODR p (toUint16 PortVal) (.Write p PortVal))

/-- Modelled from the spec: the register access primitive "write a bit to the
output-state register" (`GPIO_WriteBit` of the peripheral library): a value other than
`Bit_RESET` sets the bits of `GPIO_Pin` in the output data register, `Bit_RESET` clears
them; no other bit changes. -/
def GPIO_WriteBit (GPIOx : Option GPIO_Port) (GPIO_Pin : Nat) (BitVal : Nat) (hw : Mcu) :
    Option Mcu :=
  match GPIOx with
  | none => none
  | some p =>
    if BitVal = Bit_RESET then
      some (hw.storeODR p ((hw.port p).ODR ^^^ ((hw.port p).ODR &&& GPIO_Pin))
        (.WriteBit p GPIO_Pin BitVal))
    else
      some (hw.storeODR p ((hw.port p).ODR ||| GPIO_Pin) (.WriteBit p GPIO_Pin BitVal))

/-! ## Dio.h -/

/-- Type `Dio_ChannelGroupType` of `Dio.h`. The three members are `uint8` objects: the
functions read them through `toUint8`, which is the value the C object holds when the
descriptor was written with the number given here. -/
structure Dio_ChannelGroupType where
  mask : Nat
  offset : Nat
  port : Nat
deriving DecidableEq, Repr

/-- The macro `DIO_GET_PORT_ID(ChannelId)` of `Dio.h`. -/
def DIO_GET_PORT_ID (ChannelId : Nat) : Option GPIO_Port :=
  if ChannelId < 16 then some .GPIOA
  else if ChannelId < 32 then some .GPIOB
  else if ChannelId < 48 then some .GPIOC
  else if ChannelId < 64 then some .GPIOD
  else none

/-- The macro `DIO_GET_PIN_NUM(ChannelId)` of `Dio.h`. -/
def DIO_GET_PIN_NUM (ChannelId : Nat) : Nat := 1 <<< (ChannelId % 16)

/-! ## Dio.c -/

/-- Function `Dio_WriteChannel` of `Dio.c`. -/
def Dio_WriteChannel (ChannelId : Nat) (Level : Nat) (hw : Mcu) : Option Mcu :=
  let GET_PORT := DIO_GET_PORT_ID ChannelId
  let GET_PIN := toUint16 (DIO_GET_PIN_NUM ChannelId)
  if Level = STD_HIGH then GPIO_WriteBit GET_PORT GET_PIN Bit_SET hw
  else if Level = STD_LOW then GPIO_WriteBit GET_PORT GET_PIN Bit_RESET hw
  else some hw

/-- Function `Dio_ReadChannelGroup` of `Dio.c`; the argument is `none` for a null
pointer. The result is the returned level; no register is written. The C shift is
undefined for an offset of 32 or more; the model takes the mathematical shift. -/
def Dio_ReadChannelGroup (ChannelGroupIdPtr : Option Dio_ChannelGroupType) (hw : Mcu) :
    Option Nat :=
  match ChannelGroupIdPtr with
  | none => some STD_LOW
  | some g =>
    match DIO_GET_PORT_ID (toUint8 g.port) with
    | none => some STD_LOW
    | some p =>
      match GPIO_ReadOutputData (some p) hw with
      | none => none
      | some value =>
        let group_value := toUint16 ((value &&& toUint8 g.mask) >>> toUint8 g.offset)
        some group_value

/-- Function `Dio_WriteChannelGroup` of `Dio.c`; the argument is `none` for a null
pointer. The C shift is undefined for an offset of 32 or more; the model takes the
mathematical shift, of which only the low 8 bits are used. -/
def Dio_WriteChannelGroup (ChannelGroupIdPtr : Option Dio_ChannelGroupType) (Level : Nat)
    (hw : Mcu) : Option Mcu :=
  match ChannelGroupIdPtr with
  | none => some hw
  | some g =>
    match DIO_GET_PORT_ID (toUint8 g.port) with
    | none => some hw
    | some p =>
      match GPIO_ReadOutputData (some p) hw with
      | none => none
      | some port_value =>
        let port_value := toUint16 (port_value &&& cNot (toUint8 g.mask))
        let port_value :=
          toUint16 (port_value ||| ((Level <<< toUint8 g.offset) &&& toUint8 g.mask))
        GPIO_Write (some p) port_value hw

/-- Function `Dio_MaskedWritePort` of `Dio.c`. -/
def Dio_MaskedWritePort (PortId : Nat) (Level : Nat) (Mask : Nat) (hw : Mcu) :
    Option Mcu :=
  let GET_PORT : Option GPIO_Port :=
    match PortId with
    | 0 => some .GPIOA
    | 1 => some .GPIOB
    | 2 => some .GPIOC
    | 3 => some .GPIOD
    | _ => none
  match GET_PORT with
  | none => some hw
  | some p =>
    match GPIO_ReadOutputData (some p) hw with
    | none => none
    | some port_val =>
      let port_val := toUint16 ((port_val &&& cNot Mask) ||| (Level &&& Mask))
      GPIO_Write (some p) port_val hw

/-- Function `Dio_ReadChannel` of `Dio.c`. The port pointer the macro yields is handed to
`GPIO_ReadInputDataBit` as it is. -/
def Dio_ReadChannel (ChannelId : Nat) (hw : Mcu) : Option Nat :=
  let GET_PORT := DIO_GET_PORT_ID ChannelId
  let GET_PIN := toUint16 (DIO_GET_PIN_NUM ChannelId)
  match GPIO_ReadInputDataBit GET_PORT GET_PIN hw with
  | none => none
  | some b => if b = Bit_SET then some STD_HIGH else some STD_LOW

/-- Function `Dio_FlipChannel` of `Dio.c`: the returned level and the hardware after the
call. -/
def Dio_FlipChannel (ChannelId : Nat) (hw : Mcu) : Option (Nat × Mcu) :=
  match Dio_ReadChannel ChannelId hw with
  | none => none
  | some val =>
    if val = STD_LOW then
      match Dio_WriteChannel ChannelId STD_HIGH hw with
      | none => none
      | some hw1 => some (STD_HIGH, hw1)
    else if val = STD_HIGH then
      match Dio_WriteChannel ChannelId STD_LOW hw with
      | none => none
      | some hw1 => some (STD_LOW, hw1)
    else some (val, hw)

/-- One call of `Det_ReportError`, named by the error identifier it is given. -/
inductive Det_Report where
  | DIO_E_PARAM_INVALID_PORT_ID
deriving DecidableEq, Repr

/-- Function `Dio_ReadPort` of `Dio.c`: the returned level and the calls of
`Det_ReportError` made. The macros `DIO_DEV_ERROR_DETECT` and `MAX_DIO_PORT` are not
defined in the sources at hand and are parameters: `DIO_DEV_ERROR_DETECT` is `true` when
the condition `DIO_DEV_ERROR_DETECT == STD_ON` of the `#if` holds. The `switch` has no
`default:` label, so `GET_PORT` keeps `NULL_PTR` for any other identifier. -/
def Dio_ReadPort (DIO_DEV_ERROR_DETECT : Bool) (MAX_DIO_PORT : Nat) (PortId : Nat)
    (hw : Mcu) : Option (Nat × List Det_Report) :=
  if DIO_DEV_ERROR_DETECT = true ∧ PortId ≥ MAX_DIO_PORT then
    some (STD_LOW, [.DIO_E_PARAM_INVALID_PORT_ID])
  else
    let GET_PORT : Option GPIO_Port :=
      match PortId with
      | 0 => some .GPIOA
      | 1 => some .GPIOB
      | 2 => some .GPIOC
      | 3 => some .GPIOD
      | _ => none
    match GPIO_ReadOutputData GET_PORT hw with
    | none => none
    | some retVal => some (toUint16 retVal, [])

/-- Function `Dio_WritePort` of `Dio.c`. -/
def Dio_WritePort (PortId : Nat) (Level : Nat) (hw : Mcu) : Option Mcu :=
  let GET_PORT : Option GPIO_Port :=
    match PortId with
    | 0 => some .GPIOA
    | 1 => some .GPIOB
    | 2 => some .GPIOC
    | 3 => some .GPIOD
    | _ => none
  match GET_PORT with
  | none => some hw
  | some p => GPIO_Write (some p) Level hw

/-! ## Port.h, Port_Cfg.h -/

/-- Constant `PULL_UP` of `Port.h`. -/
def PULL_UP : Nat := 1

/-- Constant `PULL_DOWN` of `Port.h`. -/
def PULL_DOWN : Nat := 0

/-- Constant `PORT_PIN_LEVEL_HIGH` of `Port.h`. -/
def PORT_PIN_LEVEL_HIGH : Nat := 1

/-- Constant `PORT_PIN_LEVEL_LOW` of `Port.h`. -/
def PORT_PIN_LEVEL_LOW : Nat := 0

/-- Constant `PORT_PIN_MODE_DIO` of `Port.h` (enumerator of `Port_PinModeType`). -/
def PORT_PIN_MODE_DIO : Nat := 0

/-- Constant `PORT_PIN_MODE_ADC` of `Port.h`. -/
def PORT_PIN_MODE_ADC : Nat := 1

/-- Constant `PORT_PIN_MODE_PWM` of `Port.h`. -/
def PORT_PIN_MODE_PWM : Nat := 2

/-- Constant `PORT_PIN_IN` of `Port.h` (enumerator of `Port_PinDirectionType`). -/
def PORT_PIN_IN : Nat := 1

/-- Constant `PORT_PIN_OUT` of `Port.h`. -/
def PORT_PIN_OUT : Nat := 0

/-- Type `Port_PinConfigType` of `Port.h`; every member holds a value of its C type. -/
structure Port_PinConfigType where
  PortID : Nat
  PinID : Nat
  PinMode : Nat
  Direction : Nat
  Speed : Nat
  Pull : Nat
  Level : Nat
  DirectionChangeable : Nat
  ModeChangeable : Nat
deriving DecidableEq, Repr

/-- Type `Port_ConfigType` of `Port.h`: `PinCfgType` is the array the pointer member points
to, `PortCfg_PinsCount` the count stored beside it. -/
structure Port_ConfigType where
  PinCfgType : List Port_PinConfigType
  PortCfg_PinsCount : Nat
deriving DecidableEq, Repr

/-- The macro `PORT_GET_ID(PortID)` of `Port.h`. -/
def PORT_GET_ID (PortID : Nat) : Option GPIO_Port :=
  if PortID = 0 then some .GPIOA
  else if PortID = 1 then some .GPIOB
  else if PortID = 2 then some .GPIOC
  else if PortID = 3 then some .GPIOD
  else none

/-- The macro `PORT_GET_PIN_NUM(Pin)` of `Port.h`. -/
def PORT_GET_PIN_NUM (Pin : Nat) : Nat := 1 <<< (Pin % 16)

/-- Constant `Pincount` of `Port_Cfg.h`. -/
def Pincount : Nat := 64

/-- Modelled from the spec: the clock/power enable primitive
(`RCC_APB2PeriphClockCmd(RCC_APB2Periph_GPIOx, ENABLE)` of the peripheral library); the
call is recorded. -/
def RCC_APB2PeriphClockCmd (p : GPIO_Port) (hw : Mcu) : Mcu :=
  { hw with calls := hw.calls ++ [.ClockCmd p] }

/-- Modelled from the spec: applying a concrete electrical configuration to the hardware
(`GPIO_Init` of the peripheral library); the configuration registers are not part of
`Mcu`, the call is recorded with the pin mask, speed and mode it was given. -/
def GPIO_Init (GPIOx : Option GPIO_Port) (GPIO_InitStruct : GPIO_InitTypeDef) (hw : Mcu) :
    Option Mcu :=
  match GPIOx with
  | none => none
  | some p => some { hw with calls := hw.calls ++ [.Init p GPIO_InitStruct] }

/-! ## Port.c -/

/-- State of the Port driver: the static `PortInitState` and the hardware. -/
structure PortDriver where
  PortInitState : Nat
  hw : Mcu
deriving DecidableEq, Repr

/-- The value `GPIO_InitStruct.GPIO_Mode` holds after the mode selection of
`Port_Deploy_pin`. -/
def Port_Deploy_pin_mode (Portconf : Port_PinConfigType) : Option GPIOMode_TypeDef :=
  if Portconf.PinMode = PORT_PIN_MODE_DIO then
    if Portconf.Direction = PORT_PIN_IN then
      if Portconf.Pull = PULL_UP then some .GPIO_Mode_IPU
      else if Portconf.Pull = PULL_DOWN then some .GPIO_Mode_IPD
      else none
    else if Portconf.Direction = PORT_PIN_OUT then
      if Portconf.Pull = PULL_UP then some .GPIO_Mode_Out_PP
      else if Portconf.Pull = PULL_DOWN then some .GPIO_Mode_Out_OD
      else none
    else none
  else none

/-- Function `Port_Deploy_pin` of `Port.c`, applied to the record the pointer points to. -/
def Port_Deploy_pin (Portconf : Port_PinConfigType) (hw : Mcu) : Option Mcu :=
  let GPIO_Pin := toUint16 (PORT_GET_PIN_NUM Portconf.PinID)
  let GPIO_Speed := Portconf.Speed
  let clocked : Option Mcu :=
    match Portconf.PortID with
    | 0 => some (RCC_APB2PeriphClockCmd .GPIOA hw)
    | 1 => some (RCC_APB2PeriphClockCmd .GPIOB hw)
    | 2 => some (RCC_APB2PeriphClockCmd .GPIOC hw)
    | 3 => some (RCC_APB2PeriphClockCmd .GPIOD hw)
    | _ => none
  match clocked with
  | none => some hw
  | some hw1 =>
    let GPIO_Mode := Port_Deploy_pin_mode Portconf
    match GPIO_Init (PORT_GET_ID Portconf.PortID) ⟨GPIO_Pin, GPIO_Speed, GPIO_Mode⟩ hw1 with
    | none => none
    | some hw2 =>
      if Portconf.Direction = PORT_PIN_OUT then
        if Portconf.Level = PORT_PIN_LEVEL_HIGH then
          GPIO_WriteBit (PORT_GET_ID Portconf.PortID) GPIO_Pin PORT_PIN_LEVEL_HIGH hw2
        else
          GPIO_WriteBit (PORT_GET_ID Portconf.PortID) GPIO_Pin PORT_PIN_LEVEL_LOW hw2
      else some hw2

/-- The loop of `Port_Init`: `n` iterations remain, `i` is the loop variable. -/
def Port_Init_loop (PinCfgType : List Port_PinConfigType) : Nat → Nat → Mcu → Option Mcu
  | 0, _, hw => some hw
  | n + 1, i, hw =>
    match PinCfgType[i]? with
    | none => none
    | some r =>
      match Port_Deploy_pin r hw with
      | none => none
      | some hw1 => Port_Init_loop PinCfgType n (i + 1) hw1

/-- Function `Port_Init` of `Port.c`; the argument is `none` for a null pointer. -/
def Port_Init (ConfigPtr : Option Port_ConfigType) (st : PortDriver) : Option PortDriver :=
  match ConfigPtr with
  | none => some st
  | some cfg =>
    match Port_Init_loop cfg.PinCfgType cfg.PortCfg_PinsCount 0 st.hw with
    | none => none
    | some hw1 => some { PortInitState := 1, hw := hw1 }

/-- Function `Port_SetPinDirection` of `Port.c`; `PortCfg_Pins` is the configuration table the
driver is linked with. -/
def Port_SetPinDirection (PortCfg_Pins : List Port_PinConfigType) (Pin : Nat)
    (Direction : Nat) (st : PortDriver) : Option PortDriver :=
  if st.PortInitState = 0 then some st
  else if Pin ≥ Pincount then some st
  else
    match PortCfg_Pins[Pin]? with
    | none => none
    | some r =>
      if r.DirectionChangeable = 0 then some st
      else
        let pinCfg : Port_PinConfigType := { r with Direction := Direction }
        match Port_Deploy_pin pinCfg st.hw with
        | none => none
        | some hw1 => some { st with hw := hw1 }

/-- The loop of `Port_RefreshPortDirection`: `n` iterations remain, `i` is the loop
variable. The flag tested is that of `PortCfg_Pins[Pincount]`. -/
def Port_RefreshPortDirection_loop (PortCfg_Pins : List Port_PinConfigType) :
    Nat → Nat → Mcu → Option Mcu
  | 0, _, hw => some hw
  | n + 1, i, hw =>
    match PortCfg_Pins[Pincount]? with
    | none => none
    | some q =>
      if q.DirectionChangeable = 0 then
        match PortCfg_Pins[i]? with
        | none => none
        | some r =>
          match Port_Deploy_pin r hw with
          | none => none
          | some hw1 => Port_RefreshPortDirection_loop PortCfg_Pins n (i + 1) hw1
      else Port_RefreshPortDirection_loop PortCfg_Pins n (i + 1) hw

/-- Function `Port_RefreshPortDirection` of `Port.c`. -/
def Port_RefreshPortDirection (PortCfg_Pins : List Port_PinConfigType) (st : PortDriver) :
    Option PortDriver :=
  if st.PortInitState = 0 then some st
  else
    match Port_RefreshPortDirection_loop PortCfg_Pins Pincount 0 st.hw with
    | none => none
    | some hw1 => some { st with hw := hw1 }

/-- Function `Port_SetPinMode` of `Port.c`. -/
def Port_SetPinMode (PortCfg_Pins : List Port_PinConfigType) (Pin : Nat) (Mode : Nat)
    (st : PortDriver) : Option PortDriver :=
  if st.PortInitState = 0 then some st
  else if Pin ≥ Pincount then some st
  else
    match PortCfg_Pins[Pin]? with
    | none => none
    | some r =>
      if r.PinMode = 0 then some st
      else
        let pinCfg : Port_PinConfigType := { r with PinMode := Mode }
        match Port_Deploy_pin pinCfg st.hw with
        | none => none
        | some hw1 => some { st with hw := hw1 }

/-! ## Sequences of driver calls -/

/-- One call of a driver operation with its arguments. -/
inductive DriverOp where
  | Port_Init (ConfigPtr : Option Port_ConfigType)
  | Port_Deploy_pin (Portconf : Port_PinConfigType)
  | Port_SetPinDirection (Pin Direction : Nat)
  | Port_RefreshPortDirection
  | Port_SetPinMode (Pin Mode : Nat)
  | Dio_ReadChannel (ChannelId : Nat)
  | Dio_WriteChannel (ChannelId Level : Nat)
  | Dio_FlipChannel (ChannelId : Nat)
  | Dio_ReadPort (PortId : Nat)
  | Dio_WritePort (PortId Level : Nat)
  | Dio_ReadChannelGroup (ChannelGroupIdPtr : Option Dio_ChannelGroupType)
  | Dio_WriteChannelGroup (ChannelGroupIdPtr : Option Dio_ChannelGroupType) (Level : Nat)
  | Dio_MaskedWritePort (PortId Level Mask : Nat)
deriving DecidableEq, Repr

/-- The driver state after one call; the value a read returns is dropped. The functions
of `Dio.c` cannot name the file-scope static `PortInitState` of `Port.c`: they act on
the hardware only. `none` when the call makes an undefined access. -/
def runDriverOp (PortCfg_Pins : List Port_PinConfigType) (DIO_DEV_ERROR_DETECT : Bool)
    (MAX_DIO_PORT : Nat) (op : DriverOp) (st : PortDriver) : Option PortDriver :=
  match op with
  | .Port_Init ConfigPtr => Port_Init ConfigPtr st
  | .Port_Deploy_pin Portconf =>
    (Port_Deploy_pin Portconf st.hw).map (fun hw1 => { st with hw := hw1 })
  | .Port_SetPinDirection Pin Direction => Port_SetPinDirection PortCfg_Pins Pin Direction st
  | .Port_RefreshPortDirection => Port_RefreshPortDirection PortCfg_Pins st
  | .Port_SetPinMode Pin Mode => Port_SetPinMode PortCfg_Pins Pin Mode st
  | .Dio_ReadChannel ChannelId => (Dio_ReadChannel ChannelId st.hw).map (fun _ => st)
  | .Dio_WriteChannel ChannelId Level =>
    (Dio_WriteChannel ChannelId Level st.hw).map (fun hw1 => { st with hw := hw1 })
  | .Dio_FlipChannel ChannelId =>
    (Dio_FlipChannel ChannelId st.hw).map (fun r => { st with hw := r.2 })
  | .Dio_ReadPort PortId =>
    (Dio_ReadPort DIO_DEV_ERROR_DETECT MAX_DIO_PORT PortId st.hw).map (fun _ => st)
  | .Dio_WritePort PortId Level =>
    (Dio_WritePort PortId Level st.hw).map (fun hw1 => { st with hw := hw1 })
  | .Dio_ReadChannelGroup ChannelGroupIdPtr =>
    (Dio_ReadChannelGroup ChannelGroupIdPtr st.hw).map (fun _ => st)
  | .Dio_WriteChannelGroup ChannelGroupIdPtr Level =>
    (Dio_WriteChannelGroup ChannelGroupIdPtr Level st.hw).map (fun hw1 => { st with hw := hw1 })
  | .Dio_MaskedWritePort PortId Level Mask =>
    (Dio_MaskedWritePort PortId Level Mask st.hw).map (fun hw1 => { st with hw := hw1 })

/-- The driver state after a sequence of calls, made one after the other. -/
def runDriverOps (PortCfg_Pins : List Port_PinConfigType) (DIO_DEV_ERROR_DETECT : Bool)
    (MAX_DIO_PORT : Nat) : List DriverOp → PortDriver → Option PortDriver
  | [], st => some st
  | op :: ops, st =>
    match runDriverOp PortCfg_Pins DIO_DEV_ERROR_DETECT MAX_DIO_PORT op st with
    | none => none
    | some st1 => runDriverOps PortCfg_Pins DIO_DEV_ERROR_DETECT MAX_DIO_PORT ops st1

/-! ## Reference definitions, in the words of the specification -/

/-- The 16-bit output word of block `p`: what `GPIO_ReadOutputData` returns for it. -/
def Mcu.ODR16 (hw : Mcu) (p : GPIO_Port) : Nat := toUint16 (hw.port p).ODR

/-- Reference definition of the channel resolver: `port = index DIV bits_per_port`,
`bit_mask = 1 << (index MOD bits_per_port)`, and no port ("no mapping") when the
identifier exceeds `ports × bits_per_port`, for four ports of 16 bits. -/
def Resolver_spec (index : Nat) : Option Nat × Nat :=
  (if index < 4 * 16 then some (index / 16) else none, 1 <<< (index % 16))

/-- Reference definition of the masked write on a 16-bit port word:
`new = (current AND NOT mask) OR (level AND mask)`. -/
def MaskedWrite_spec (current level mask : Nat) : Nat :=
  (current &&& (65535 ^^^ mask)) ||| (level &&& mask)

/-- Reference definition of the group write on a 16-bit port word:
`new = (current AND NOT mask) OR ((level SHIFTED LEFT by offset) AND mask)`. -/
def GroupWrite_spec (current level mask offset : Nat) : Nat :=
  (current &&& (65535 ^^^ mask)) ||| ((level <<< offset) &&& mask)

/-- Reference definition of the group read:
`(port_value AND mask) SHIFTED RIGHT by offset`. -/
def GroupRead_spec (port_value mask offset : Nat) : Nat :=
  (port_value &&& mask) >>> offset

/-- The descriptor invariant of the specification, on the values the descriptor holds:
`offset` is the position of the least-significant set bit of `mask`. -/
def Dio_ChannelGroupType.offsetIsLsb (g : Dio_ChannelGroupType) : Prop :=
  (toUint8 g.mask).testBit (toUint8 g.offset) = true ∧
    ∀ j : Nat, j < toUint8 g.offset → (toUint8 g.mask).testBit j = false

/-- The hypothesis "the input-state word mirrors the output register" (pins configured as
outputs, observed as inputs), for block `p` of the state `hw`. -/
def Mcu.inputMirrorsOutput (hw : Mcu) (p : GPIO_Port) : Prop :=
  (hw.port p).IDR = (hw.port p).ODR

/-- The complement of a two-valued logic level. -/
def Level_complement (level : Nat) : Nat :=
  if level = STD_LOW then STD_HIGH else STD_LOW

/-- Reference table of the electrical mode of a digital I/O pin: direction out with pull
up is push-pull output, out with pull down is open-drain output, in with pull up is
pull-up input, in with pull down is pull-down input. -/
def ElectricalMode_spec (direction pull : Nat) : GPIOMode_TypeDef :=
  if direction = PORT_PIN_OUT then
    (if pull = PULL_UP then .GPIO_Mode_Out_PP else .GPIO_Mode_Out_OD)
  else
    (if pull = PULL_UP then .GPIO_Mode_IPU else .GPIO_Mode_IPD)

/-- Reference definition of the deployment pass: `DeployPin` on each entry of the table,
one after the other, in table order. -/
def DeployAll_spec : List Port_PinConfigType → Mcu → Option Mcu
  | [], hw => some hw
  | r :: rs, hw =>
    match Port_Deploy_pin r hw with
    | none => none
    | some hw1 => DeployAll_spec rs hw1

/-! ## Concrete states and tables used in the examples -/

/-- All data registers zero, no call made yet. -/
def Mcu_reset : Mcu := ⟨⟨0, 0⟩, ⟨0, 0⟩, ⟨0, 0⟩, ⟨0, 0⟩, []⟩

/-- Every output data register holds `0x1234`. -/
def Mcu_1234 : Mcu := ⟨⟨0, 0x1234⟩, ⟨0, 0x1234⟩, ⟨0, 0x1234⟩, ⟨0, 0x1234⟩, []⟩

/-- Output data registers `0x00AA`, `0x0055`, `0x0F0F`, `0xF0F0` for A, B, C, D. -/
def Mcu_distinct : Mcu := ⟨⟨0, 0x00AA⟩, ⟨0, 0x0055⟩, ⟨0, 0x0F0F⟩, ⟨0, 0xF0F0⟩, []⟩

/-- Constant `GPIO_Speed_2MHz` of the peripheral library. -/
def GPIO_Speed_2MHz : Nat := 2

/-- The first record of the table in `Port_Cfg.c` (port C, pin 45). -/
def PortCfg_Pins_src_0 : Port_PinConfigType :=
  { PortID := 2, PinID := 45, PinMode := PORT_PIN_MODE_DIO, Direction := PORT_PIN_OUT,
    Speed := GPIO_Speed_2MHz, Pull := PULL_UP, Level := PORT_PIN_LEVEL_HIGH,
    DirectionChangeable := 0, ModeChangeable := 0 }

/-- The second record of the table in `Port_Cfg.c` (port B, pin 24). -/
def PortCfg_Pins_src_1 : Port_PinConfigType :=
  { PortID := 1, PinID := 24, PinMode := PORT_PIN_MODE_DIO, Direction := PORT_PIN_IN,
    Speed := GPIO_Speed_2MHz, Pull := PULL_UP, Level := PORT_PIN_LEVEL_LOW,
    DirectionChangeable := 0, ModeChangeable := 0 }

/-- The table `PortCfg_Pins` defined in `Port_Cfg.c`: two records written out, the other
62 elements of the array zero-initialised. -/
def PortCfg_Pins_src : List Port_PinConfigType :=
  [PortCfg_Pins_src_0, PortCfg_Pins_src_1] ++ List.replicate 62 ⟨0, 0, 0, 0, 0, 0, 0, 0, 0⟩

/-- A table of `Pincount` records whose first record is the first record of `Port_Cfg.c`
with the mode-changeable flag set; its mode is digital I/O. -/
def PortCfg_Pins_modeFlagSet : List Port_PinConfigType :=
  [{ PortCfg_Pins_src_0 with ModeChangeable := 1 }, PortCfg_Pins_src_1] ++
    List.replicate 62 ⟨0, 0, 0, 0, 0, 0, 0, 0, 0⟩

/-- A table of `Pincount` records whose first record is the first record of `Port_Cfg.c`
in analog mode; its mode-changeable flag is clear. -/
def PortCfg_Pins_adcFixed : List Port_PinConfigType :=
  [{ PortCfg_Pins_src_0 with PinMode := PORT_PIN_MODE_ADC }, PortCfg_Pins_src_1] ++
    List.replicate 62 ⟨0, 0, 0, 0, 0, 0, 0, 0, 0⟩

/-- The table of `Port_Cfg.c` followed by one more record, standing for the memory
right behind the array; that record has a non-zero `DirectionChangeable` member. -/
def PortCfg_Pins_src_then_flag1 : List Port_PinConfigType :=
  PortCfg_Pins_src ++ [⟨0, 0, 0, 0, 0, 0, 0, 1, 0⟩]

/-- The driver after initialisation, on hardware in the all-zero state. -/
def PortDriver_initialized : PortDriver := ⟨1, Mcu_reset⟩

/-- The driver before `Port_Init`, on hardware in the all-zero state. -/
def PortDriver_uninitialized : PortDriver := ⟨0, Mcu_reset⟩

/-- Input and output data registers equal on every block: `0x00AA`, `0x0055`, `0x0F0F`,
`0xF0F0` for A, B, C, D. -/
def Mcu_mirrored : Mcu :=
  ⟨⟨0x00AA, 0x00AA⟩, ⟨0x0055, 0x0055⟩, ⟨0x0F0F, 0x0F0F⟩, ⟨0xF0F0, 0xF0F0⟩, []⟩

/-- A table of `Pincount` records whose first record is the first record of `Port_Cfg.c`
with the direction-changeable flag set. -/
def PortCfg_Pins_dirFlagSet : List Port_PinConfigType :=
  [{ PortCfg_Pins_src_0 with DirectionChangeable := 1 }, PortCfg_Pins_src_1] ++
    List.replicate 62 ⟨0, 0, 0, 0, 0, 0, 0, 0, 0⟩

/-- A configuration of two entries: the two records written out in `Port_Cfg.c`. -/
def Port_ConfigType_two : Port_ConfigType :=
  { PinCfgType := [PortCfg_Pins_src_0, PortCfg_Pins_src_1], PortCfg_PinsCount := 2 }

/-- A sequence of calls: a direction change before initialisation, the deployment pass
over the two records of `Port_Cfg.c`, channel and group accesses, `Port_Init` with a
null pointer, a mode change and a single deployment. -/
def DriverOp_sequence : List DriverOp :=
  [.Port_SetPinDirection 0 PORT_PIN_IN,
    .Dio_ReadChannel 45,
    .Port_Init (some Port_ConfigType_two),
    .Dio_WriteChannel 45 STD_LOW,
    .Dio_FlipChannel 45,
    .Dio_ReadPort 2,
    .Dio_WritePort 1 0x00FF,
    .Dio_ReadChannelGroup (some ⟨0x0F, 0, 0⟩),
    .Dio_WriteChannelGroup (some ⟨0x0F, 0, 0⟩) 0x05,
    .Dio_MaskedWritePort 3 0xFFFF 0x0F00,
    .Port_Init none,
    .Port_SetPinMode 0 PORT_PIN_MODE_PWM,
    .Port_SetPinDirection 1 PORT_PIN_OUT,
    .Port_Deploy_pin PortCfg_Pins_src_1]

/-- The driver state after `DriverOp_sequence`, started before initialisation on the
all-zero hardware with the table of `Port_Cfg.c`. -/
def DriverOp_sequence_final : PortDriver :=
  { PortInitState := 1,
    hw :=
      { A := ⟨0, 0x0005⟩, B := ⟨0, 0x00FF⟩, C := ⟨0, 0x2000⟩, D := ⟨0, 0x0F00⟩,
        calls :=
          [.ClockCmd .GPIOC, .Init .GPIOC ⟨0x2000, 2, some .GPIO_Mode_Out_PP⟩,
            .WriteBit .GPIOC 0x2000 1,
            .ClockCmd .GPIOB, .Init .GPIOB ⟨0x0100, 2, some .GPIO_Mode_IPU⟩,
            .WriteBit .GPIOC 0x2000 0, .WriteBit .GPIOC 0x2000 1,
            .Write .GPIOB 0x00FF, .Write .GPIOA 0x0005, .Write .GPIOD 0x0F00,
            .ClockCmd .GPIOB, .Init .GPIOB ⟨0x0100, 2, some .GPIO_Mode_IPU⟩] } }

/-! ## Bit-level lemmas -/

theorem testBit_toUint16 (x k : Nat) :
    (toUint16 x).testBit k = (decide (k < 16) && x.testBit k) := by
  have h : (65536 : Nat) = 2 ^ 16 := by norm_num
  unfold toUint16
  rw [h, Nat.testBit_mod_two_pow]

theorem testBit_toUint8 (x k : Nat) :
    (toUint8 x).testBit k = (decide (k < 8) && x.testBit k) := by
  have h : (256 : Nat) = 2 ^ 8 := by norm_num
  unfold toUint8
  rw [h, Nat.testBit_mod_two_pow]

theorem testBit_cNot (x k : Nat) :
    (cNot x).testBit k = (decide (k < 32) ^^ x.testBit k) := by
  have h : (4294967295 : Nat) = 2 ^ 32 - 1 := by norm_num
  unfold cNot
  rw [h, Nat.testBit_xor, Nat.testBit_two_pow_sub_one]

theorem testBit_65535_xor (x k : Nat) :
    (65535 ^^^ x).testBit k = (decide (k < 16) ^^ x.testBit k) := by
  have h : (65535 : Nat) = 2 ^ 16 - 1 := by norm_num
  rw [h, Nat.testBit_xor, Nat.testBit_two_pow_sub_one]

theorem toUint16_lt (x : Nat) : toUint16 x < 65536 := by
  unfold toUint16; omega

theorem toUint16_of_lt {x : Nat} (h : x < 65536) : toUint16 x = x := by
  unfold toUint16; omega

theorem testBit_of_lt_65536 {x : Nat} (h : x < 65536) {k : Nat} (hk : 16 ≤ k) :
    x.testBit k = false := by
  apply Nat.testBit_lt_two_pow
  calc x < 65536 := h
    _ = 2 ^ 16 := by norm_num
    _ ≤ 2 ^ k := Nat.pow_le_pow_right (by norm_num) hk

/-! ## Lemmas on the hardware state -/

theorem Mcu.port_storeODR (hw : Mcu) (p q : GPIO_Port) (v : Nat) (c : HwCall) :
    (hw.storeODR p v c).port q = if q = p then { hw.port p with ODR := v } else hw.port q := by
  cases p <;> cases q <;> simp [Mcu.storeODR, Mcu.port]

theorem Mcu.ODR16_storeODR (hw : Mcu) (p q : GPIO_Port) (v : Nat) (c : HwCall) :
    (hw.storeODR p v c).ODR16 q = if q = p then toUint16 v else hw.ODR16 q := by
  unfold Mcu.ODR16
  rw [Mcu.port_storeODR]
  split <;> rfl

theorem GPIO_Port.eq_of_index_eq {p q : GPIO_Port} (h : p.index = q.index) : p = q := by
  cases p <;> cases q <;> simp [GPIO_Port.index] at h ⊢

/-- What `Dio_WriteChannelGroup` does with a non-null descriptor whose `port` member
`DIO_GET_PORT_ID` maps to the block `p`. -/
theorem Dio_WriteChannelGroup_resolved (g : Dio_ChannelGroupType) (Level : Nat) (hw : Mcu)
    (p : GPIO_Port) (hp : DIO_GET_PORT_ID (toUint8 g.port) = some p) :
    Dio_WriteChannelGroup (some g) Level hw =
      some (hw.storeODR p
        (toUint16 (toUint16 (toUint16 (hw.ODR16 p &&& cNot (toUint8 g.mask)) |||
          ((Level <<< toUint8 g.offset) &&& toUint8 g.mask))))
        (.Write p (toUint16 (toUint16 (hw.ODR16 p &&& cNot (toUint8 g.mask)) |||
          ((Level <<< toUint8 g.offset) &&& toUint8 g.mask))))) := by
  simp [Dio_WriteChannelGroup, hp, GPIO_ReadOutputData, GPIO_Write, Mcu.ODR16]

/-- Function `Dio_WriteChannelGroup` returns early when `DIO_GET_PORT_ID` yields `NULL_PTR`. -/
theorem Dio_WriteChannelGroup_unresolved (g : Dio_ChannelGroupType) (Level : Nat) (hw : Mcu)
    (hp : DIO_GET_PORT_ID (toUint8 g.port) = none) :
    Dio_WriteChannelGroup (some g) Level hw = some hw := by
  simp [Dio_WriteChannelGroup, hp]

/-- The word `Dio_WriteChannelGroup` writes equals the reference group write with the
stored 8-bit mask and offset. -/
theorem groupWord_eq_spec (w Level mask offset : Nat) (hw : w < 65536) :
    toUint16 (toUint16 (toUint16 (w &&& cNot (toUint8 mask)) |||
        ((Level <<< toUint8 offset) &&& toUint8 mask))) =
      GroupWrite_spec w Level (toUint8 mask) (toUint8 offset) := by
  apply Nat.eq_of_testBit_eq
  intro k
  unfold GroupWrite_spec
  simp only [testBit_toUint16, Nat.testBit_or, Nat.testBit_and, testBit_cNot,
    testBit_65535_xor, testBit_toUint8]
  by_cases h16 : k < 16
  · have h32 : k < 32 := by omega
    simp [h16, h32]
  · have hwk : w.testBit k = false := testBit_of_lt_65536 hw (by omega)
    have h8 : ¬ k < 8 := by omega
    simp [h16, h8, hwk]

/-- The word `Dio_MaskedWritePort` writes equals the reference masked write. -/
theorem maskedWord_eq_spec (w Level Mask : Nat) (hw : w < 65536) (hL : Level < 65536) :
    toUint16 (toUint16 ((w &&& cNot Mask) ||| (Level &&& Mask))) =
      MaskedWrite_spec w Level Mask := by
  apply Nat.eq_of_testBit_eq
  intro k
  unfold MaskedWrite_spec
  simp only [testBit_toUint16, Nat.testBit_or, Nat.testBit_and, testBit_cNot,
    testBit_65535_xor]
  by_cases h16 : k < 16
  · have h32 : k < 32 := by omega
    simp [h16, h32]
  · have hwk : w.testBit k = false := testBit_of_lt_65536 hw (by omega)
    have hLk : Level.testBit k = false := testBit_of_lt_65536 hL (by omega)
    simp [h16, hwk, hLk]

/-- What `Dio_MaskedWritePort` does for the port identifier of a block. -/
theorem Dio_MaskedWritePort_index (p : GPIO_Port) (Level Mask : Nat) (hw : Mcu) :
    Dio_MaskedWritePort p.index Level Mask hw =
      some (hw.storeODR p (toUint16 (toUint16 ((hw.ODR16 p &&& cNot Mask) ||| (Level &&& Mask))))
        (.Write p (toUint16 ((hw.ODR16 p &&& cNot Mask) ||| (Level &&& Mask))))) := by
  cases p <;> simp [Dio_MaskedWritePort, GPIO_Port.index, GPIO_ReadOutputData, GPIO_Write,
    Mcu.ODR16]

/-- Function `Dio_MaskedWritePort` returns at the `default:` label for a port identifier above 3. -/
theorem Dio_MaskedWritePort_invalid (PortId Level Mask : Nat) (hw : Mcu) (h : 4 ≤ PortId) :
    Dio_MaskedWritePort PortId Level Mask hw = some hw := by
  match PortId, h with
  | n + 4, _ => simp [Dio_MaskedWritePort]

/-- Macro `DIO_GET_PORT_ID` maps a channel identifier below 64 to the block numbered
`ChannelId / 16`. -/
theorem DIO_GET_PORT_ID_of_lt (i : Nat) (hi : i < 64) :
    ∃ p : GPIO_Port, DIO_GET_PORT_ID i = some p ∧ p.index = i / 16 := by
  unfold DIO_GET_PORT_ID
  split_ifs with h1 h2 h3
  · exact ⟨.GPIOA, rfl, by simp only [GPIO_Port.index]; omega⟩
  · exact ⟨.GPIOB, rfl, by simp only [GPIO_Port.index]; omega⟩
  · exact ⟨.GPIOC, rfl, by simp only [GPIO_Port.index]; omega⟩
  · exact ⟨.GPIOD, rfl, by simp only [GPIO_Port.index]; omega⟩

/-- Macro `DIO_GET_PORT_ID` yields `NULL_PTR` from 64 on. -/
theorem DIO_GET_PORT_ID_of_ge (i : Nat) (hi : 64 ≤ i) : DIO_GET_PORT_ID i = none := by
  unfold DIO_GET_PORT_ID
  split_ifs <;> first | omega | rfl

/-- The pin mask of a channel, as a `uint16_t`, is the single bit `ChannelId % 16`. -/
theorem toUint16_DIO_GET_PIN_NUM (i : Nat) :
    toUint16 (DIO_GET_PIN_NUM i) = 2 ^ (i % 16) := by
  have h : i % 16 < 16 := Nat.mod_lt _ (by norm_num)
  have h2 : 2 ^ (i % 16) < 2 ^ 16 := Nat.pow_lt_pow_right (by norm_num) h
  unfold DIO_GET_PIN_NUM
  rw [Nat.shiftLeft_eq, Nat.one_mul]
  exact toUint16_of_lt (by norm_num at h2 ⊢; exact h2)

/-! ## Channel resolver -/

/-- C1: the channel resolver (`DIO_GET_PORT_ID` with `DIO_GET_PIN_NUM`) equals the
reference definition: below 64 the port number is `i / 16` and the mask `1 << (i % 16)`,
from 64 on there is no port; channel 45 resolves to port C with mask `1 << 13`. -/
theorem Dio_resolver_eq_Resolver_spec :
    (∀ i : Nat,
      ((DIO_GET_PORT_ID i).map GPIO_Port.index, DIO_GET_PIN_NUM i) = Resolver_spec i) ∧
    ((DIO_GET_PORT_ID 45).map GPIO_Port.index = some 2 ∧
      DIO_GET_PORT_ID 45 = some GPIO_Port.GPIOC ∧ DIO_GET_PIN_NUM 45 = 1 <<< 13) := by
  refine ⟨fun i => ?_, by decide⟩
  unfold Resolver_spec
  by_cases hi : i < 64
  · obtain ⟨p, hp, hidx⟩ := DIO_GET_PORT_ID_of_lt i hi
    have h64 : i < 4 * 16 := by omega
    simp [hp, hidx, h64, DIO_GET_PIN_NUM]
  · have h64 : ¬ i < 4 * 16 := by omega
    simp [DIO_GET_PORT_ID_of_ge i (by omega), h64, DIO_GET_PIN_NUM]

/-! ## Group and masked writes -/

/-- C2 (the code at the failing input): a group on port B (`port = 1`, mask `0x0F`,
offset 0) written with level `0x0A` from the all-zero state changes the output register
of port A to `0x000A` and leaves port B at 0. -/
theorem Dio_WriteChannelGroup_portB_writes_portA :
    (Dio_WriteChannelGroup (some ⟨0x0F, 0, 1⟩) 0x0A Mcu_reset).map
      (fun h => (h.A.ODR, h.B.ODR, h.C.ODR, h.D.ODR)) = some (0x000A, 0, 0, 0) := by
  decide

/-- C3: after `Dio_WriteChannelGroup` with a group of mask `m`, and after
`Dio_MaskedWritePort` with `Mask = m`, every bit outside `m` of the output word of every
port is what it was before the call. -/
theorem write_keeps_bits_outside_mask (m Level : Nat) (hw : Mcu) (p : GPIO_Port) (k : Nat)
    (hk : m.testBit k = false) :
    (∀ offset port : Nat, ∃ hw1 : Mcu,
        Dio_WriteChannelGroup (some ⟨m, offset, port⟩) Level hw = some hw1 ∧
        (hw1.ODR16 p).testBit k = (hw.ODR16 p).testBit k) ∧
    (∀ PortId : Nat, ∃ hw1 : Mcu,
        Dio_MaskedWritePort PortId Level m hw = some hw1 ∧
        (hw1.ODR16 p).testBit k = (hw.ODR16 p).testBit k) := by
  constructor
  · intro offset port
    cases hq : DIO_GET_PORT_ID (toUint8 port) with
    | none =>
      exact ⟨hw, Dio_WriteChannelGroup_unresolved ⟨m, offset, port⟩ Level hw hq, rfl⟩
    | some q =>
      refine ⟨_, Dio_WriteChannelGroup_resolved ⟨m, offset, port⟩ Level hw q hq, ?_⟩
      rw [Mcu.ODR16_storeODR]
      split
      · next hpq =>
        subst hpq
        have hlt : hw.ODR16 p < 65536 := toUint16_lt _
        by_cases h16 : k < 16
        · have h32 : k < 32 := by omega
          simp [testBit_toUint16, testBit_cNot, testBit_toUint8, hk, h16, h32]
        · simp [testBit_toUint16, h16, testBit_of_lt_65536 hlt (Nat.le_of_not_lt h16)]
      · rfl
  · intro PortId
    by_cases h4 : 4 ≤ PortId
    · exact ⟨hw, Dio_MaskedWritePort_invalid PortId Level m hw h4, rfl⟩
    · have hex : ∃ q : GPIO_Port, q.index = PortId := by
        have : PortId = 0 ∨ PortId = 1 ∨ PortId = 2 ∨ PortId = 3 := by omega
        rcases this with h | h | h | h
        · exact ⟨.GPIOA, h.symm⟩
        · exact ⟨.GPIOB, h.symm⟩
        · exact ⟨.GPIOC, h.symm⟩
        · exact ⟨.GPIOD, h.symm⟩
      obtain ⟨q, rfl⟩ := hex
      refine ⟨_, Dio_MaskedWritePort_index q Level m hw, ?_⟩
      rw [Mcu.ODR16_storeODR]
      split
      · next hpq =>
        subst hpq
        have hlt : hw.ODR16 p < 65536 := toUint16_lt _
        by_cases h16 : k < 16
        · have h32 : k < 32 := by omega
          simp [testBit_toUint16, testBit_cNot, hk, h16, h32]
        · simp [testBit_toUint16, h16, testBit_of_lt_65536 hlt (Nat.le_of_not_lt h16)]
      · rfl

/-- C3, at mask `0x0F`, level `0x0A`, port A and bit 4 of the state holding `0x1234`. -/
theorem write_keeps_bits_outside_mask_witness :
    Nat.testBit 0x0F 4 = false ∧
    (∀ offset port : Nat, ∃ hw1 : Mcu,
        Dio_WriteChannelGroup (some ⟨0x0F, offset, port⟩) 0x0A Mcu_1234 = some hw1 ∧
        (hw1.ODR16 GPIO_Port.GPIOA).testBit 4 = (Mcu_1234.ODR16 GPIO_Port.GPIOA).testBit 4) ∧
    (∀ PortId : Nat, ∃ hw1 : Mcu,
        Dio_MaskedWritePort PortId 0x0A 0x0F Mcu_1234 = some hw1 ∧
        (hw1.ODR16 GPIO_Port.GPIOA).testBit 4 = (Mcu_1234.ODR16 GPIO_Port.GPIOA).testBit 4) :=
  ⟨by decide, write_keeps_bits_outside_mask 0x0F 0x0A Mcu_1234 GPIO_Port.GPIOA 4 (by decide)⟩

/-! ## Single channel write -/

/-- C4: for a channel below 64, `Dio_WriteChannel` with `STD_HIGH` sets bit `i % 16` of
the output register of port `i / 16`, with `STD_LOW` clears it, and with any other level
changes nothing at all; every other bit of every output register keeps its value. -/
theorem Dio_WriteChannel_effect (i v : Nat) (hw : Mcu) (hi : i < 64) :
    ∃ hw1 : Mcu, Dio_WriteChannel i v hw = some hw1 ∧
      (∀ (q : GPIO_Port) (k : Nat), ((hw1.port q).ODR).testBit k =
        if q.index = i / 16 ∧ k = i % 16 then
          (if v = STD_HIGH then true
           else if v = STD_LOW then false
           else ((hw.port q).ODR).testBit k)
        else ((hw.port q).ODR).testBit k) ∧
      (v ≠ STD_HIGH → v ≠ STD_LOW → hw1 = hw) := by
  obtain ⟨p, hp, hidx⟩ := DIO_GET_PORT_ID_of_lt i hi
  have hpin := toUint16_DIO_GET_PIN_NUM i
  have hq : ∀ q : GPIO_Port, (q.index = i / 16) ↔ q = p := by
    intro q
    constructor
    · intro h; exact GPIO_Port.eq_of_index_eq (h.trans hidx.symm)
    · intro h; rw [h]; exact hidx
  by_cases hH : v = STD_HIGH
  · refine ⟨_, by simp [Dio_WriteChannel, hH, hp, hpin, GPIO_WriteBit, Bit_SET, Bit_RESET]; rfl,
      ?_, fun h => absurd hH h⟩
    intro q k
    rw [Mcu.port_storeODR]
    by_cases hqp : q = p
    · subst hqp
      by_cases hk : k = i % 16
      · simp [hH, hk, hidx, Nat.testBit_or, Nat.testBit_two_pow_self]
      · have hk2 : ¬ (i % 16 = k) := fun h => hk h.symm
        simp [hk, hk2, Nat.testBit_or, Nat.testBit_two_pow]
    · have : ¬ (q.index = i / 16) := fun h => hqp ((hq q).1 h)
      simp [hqp, this]
  · by_cases hL : v = STD_LOW
    · refine ⟨_, by simp [Dio_WriteChannel, hH, hL, hp, hpin, GPIO_WriteBit, Bit_RESET]; rfl,
        ?_, fun _ h => absurd hL h⟩
      have hLH : ¬ (STD_LOW = STD_HIGH) := by decide
      intro q k
      rw [Mcu.port_storeODR]
      by_cases hqp : q = p
      · subst hqp
        by_cases hk : k = i % 16
        · simp [hL, hLH, hk, hidx, Nat.testBit_xor, Nat.testBit_and, Nat.testBit_two_pow_self]
        · have hk2 : ¬ (i % 16 = k) := fun h => hk h.symm
          simp [hk, hk2, Nat.testBit_xor, Nat.testBit_and, Nat.testBit_two_pow]
      · have : ¬ (q.index = i / 16) := fun h => hqp ((hq q).1 h)
        simp [hqp, this]
    · refine ⟨hw, by simp [Dio_WriteChannel, hH, hL], ?_, fun _ _ => rfl⟩
      intro q k
      simp [hH, hL]

/-- C4, at channel 45 and `STD_HIGH` from the all-zero state: exactly bit 13 of port C. -/
theorem Dio_WriteChannel_effect_witness :
    45 < 64 ∧
    (∃ hw1 : Mcu, Dio_WriteChannel 45 STD_HIGH Mcu_reset = some hw1 ∧
      (∀ (q : GPIO_Port) (k : Nat), ((hw1.port q).ODR).testBit k =
        if q.index = 45 / 16 ∧ k = 45 % 16 then
          (if STD_HIGH = STD_HIGH then true
           else if STD_HIGH = STD_LOW then false
           else ((Mcu_reset.port q).ODR).testBit k)
        else ((Mcu_reset.port q).ODR).testBit k) ∧
      (STD_HIGH ≠ STD_HIGH → STD_HIGH ≠ STD_LOW → hw1 = Mcu_reset)) ∧
    (Dio_WriteChannel 45 STD_HIGH Mcu_reset).map
      (fun h => (h.A.ODR, h.B.ODR, h.C.ODR, h.D.ODR)) = some (0, 0, 1 <<< 13, 0) :=
  ⟨by decide, Dio_WriteChannel_effect 45 STD_HIGH Mcu_reset (by decide), by decide⟩

/-! ## The group scenario of the specification -/

/-- C5 (counterexample): with the descriptor written as mask `0x0F00`, offset 8 on
port A and the output register holding `0x1234`, `Dio_WriteChannelGroup` with level
`0x0A` leaves the register at `0x1234`, not `0x1A34`. -/
theorem Dio_WriteChannelGroup_mask_0F00_unchanged :
    (Dio_WriteChannelGroup (some ⟨0x0F00, 8, 0⟩) 0x0A Mcu_1234).map (fun h => h.A.ODR)
      = some 0x1234 ∧
    (Dio_WriteChannelGroup (some ⟨0x0F00, 8, 0⟩) 0x0A Mcu_1234).map (fun h => h.A.ODR)
      ≠ some 0x1A34 := by
  decide

/-- C5 (amended): on port A with output word `0x1234`, the descriptor written as mask
`0x0F00`, offset 8 holds the 8-bit mask `0x00` and the group write of `0x0A` leaves the
word `0x1234`; one byte lower, with mask `0xF0` and offset 4, the group write of `0x0A`
clears bits 4–7 and injects `0x0A << 4`, giving `0x12A4`. -/
theorem Dio_WriteChannelGroup_scenario (hw : Mcu)
    (h : hw.ODR16 GPIO_Port.GPIOA = 0x1234) :
    toUint8 0x0F00 = 0x00 ∧
    (∃ hw1 : Mcu, Dio_WriteChannelGroup (some ⟨0x0F00, 8, 0⟩) 0x0A hw = some hw1 ∧
      hw1.ODR16 GPIO_Port.GPIOA = 0x1234) ∧
    (∃ hw1 : Mcu, Dio_WriteChannelGroup (some ⟨0xF0, 4, 0⟩) 0x0A hw = some hw1 ∧
      hw1.ODR16 GPIO_Port.GPIOA = 0x12A4) := by
  refine ⟨by decide, ⟨_, Dio_WriteChannelGroup_resolved ⟨0x0F00, 8, 0⟩ 0x0A hw .GPIOA
    (by decide), ?_⟩, ⟨_, Dio_WriteChannelGroup_resolved ⟨0xF0, 4, 0⟩ 0x0A hw .GPIOA
    (by decide), ?_⟩⟩
  · rw [Mcu.ODR16_storeODR, if_pos rfl, h]
    decide
  · rw [Mcu.ODR16_storeODR, if_pos rfl, h]
    decide

/-- C5 (amended), in the state whose output registers all hold `0x1234`. -/
theorem Dio_WriteChannelGroup_scenario_witness :
    Mcu_1234.ODR16 GPIO_Port.GPIOA = 0x1234 ∧
    (toUint8 0x0F00 = 0x00 ∧
    (∃ hw1 : Mcu, Dio_WriteChannelGroup (some ⟨0x0F00, 8, 0⟩) 0x0A Mcu_1234 = some hw1 ∧
      hw1.ODR16 GPIO_Port.GPIOA = 0x1234) ∧
    (∃ hw1 : Mcu, Dio_WriteChannelGroup (some ⟨0xF0, 4, 0⟩) 0x0A Mcu_1234 = some hw1 ∧
      hw1.ODR16 GPIO_Port.GPIOA = 0x12A4)) :=
  ⟨by decide, Dio_WriteChannelGroup_scenario Mcu_1234 (by decide)⟩

/-! ## Group read -/

/-- C9 (the code at the failing input): with output words `0x00AA` on port A and
`0x0055` on port B, reading the group of mask `0xFF`, offset 0 on port B (`port = 1`)
returns `0xAA`, the group value of port A. -/
theorem Dio_ReadChannelGroup_portB_reads_portA :
    Dio_ReadChannelGroup (some ⟨0xFF, 0, 1⟩) Mcu_distinct = some 0xAA ∧
    GroupRead_spec (Mcu_distinct.ODR16 GPIO_Port.GPIOB) 0xFF 0 = 0x55 := by
  decide

/-! ## Masked port write -/

/-- C10: for a port identifier 0..3 and a 16-bit level, `Dio_MaskedWritePort` leaves that
port's output register equal to `(old AND NOT mask) OR (level AND mask)` and the
registers of the other three ports as they were; for a port identifier from 4 on it
changes nothing. -/
theorem Dio_MaskedWritePort_eq_spec (PortId Level Mask : Nat) (hw : Mcu)
    (hL : Level < 65536) :
    (PortId < 4 → ∃ (p : GPIO_Port) (hw1 : Mcu), p.index = PortId ∧
        Dio_MaskedWritePort PortId Level Mask hw = some hw1 ∧
        (hw1.port p).ODR = MaskedWrite_spec (hw.ODR16 p) Level Mask ∧
        (hw1.port p).IDR = (hw.port p).IDR ∧
        ∀ q : GPIO_Port, q ≠ p → hw1.port q = hw.port q) ∧
    (4 ≤ PortId → Dio_MaskedWritePort PortId Level Mask hw = some hw) := by
  refine ⟨fun h4 => ?_, Dio_MaskedWritePort_invalid PortId Level Mask hw⟩
  have hex : ∃ q : GPIO_Port, q.index = PortId := by
    have : PortId = 0 ∨ PortId = 1 ∨ PortId = 2 ∨ PortId = 3 := by omega
    rcases this with h | h | h | h
    · exact ⟨.GPIOA, h.symm⟩
    · exact ⟨.GPIOB, h.symm⟩
    · exact ⟨.GPIOC, h.symm⟩
    · exact ⟨.GPIOD, h.symm⟩
  obtain ⟨p, rfl⟩ := hex
  refine ⟨p, _, rfl, Dio_MaskedWritePort_index p Level Mask hw, ?_, ?_, ?_⟩
  · rw [Mcu.port_storeODR, if_pos rfl]
    exact maskedWord_eq_spec (hw.ODR16 p) Level Mask (toUint16_lt _) hL
  · rw [Mcu.port_storeODR, if_pos rfl]
  · intro q hq
    rw [Mcu.port_storeODR, if_neg hq]

/-- C10, at port C (identifier 2) and at the invalid identifier 7, with level `0x00A0`,
mask `0x00F0` and every output register holding `0x1234`. -/
theorem Dio_MaskedWritePort_eq_spec_witness :
    0x00A0 < 65536 ∧
    ((2 < 4 → ∃ (p : GPIO_Port) (hw1 : Mcu), p.index = 2 ∧
        Dio_MaskedWritePort 2 0x00A0 0x00F0 Mcu_1234 = some hw1 ∧
        (hw1.port p).ODR = MaskedWrite_spec (Mcu_1234.ODR16 p) 0x00A0 0x00F0 ∧
        (hw1.port p).IDR = (Mcu_1234.port p).IDR ∧
        ∀ q : GPIO_Port, q ≠ p → hw1.port q = Mcu_1234.port q) ∧
      (4 ≤ 2 → Dio_MaskedWritePort 2 0x00A0 0x00F0 Mcu_1234 = some Mcu_1234)) ∧
    ((7 < 4 → ∃ (p : GPIO_Port) (hw1 : Mcu), p.index = 7 ∧
        Dio_MaskedWritePort 7 0x00A0 0x00F0 Mcu_1234 = some hw1 ∧
        (hw1.port p).ODR = MaskedWrite_spec (Mcu_1234.ODR16 p) 0x00A0 0x00F0 ∧
        (hw1.port p).IDR = (Mcu_1234.port p).IDR ∧
        ∀ q : GPIO_Port, q ≠ p → hw1.port q = Mcu_1234.port q) ∧
      (4 ≤ 7 → Dio_MaskedWritePort 7 0x00A0 0x00F0 Mcu_1234 = some Mcu_1234)) :=
  ⟨by decide, Dio_MaskedWritePort_eq_spec 2 0x00A0 0x00F0 Mcu_1234 (by decide),
    Dio_MaskedWritePort_eq_spec 7 0x00A0 0x00F0 Mcu_1234 (by decide)⟩

/-! ## Port driver: runtime reconfiguration -/

/-- What `Port_SetPinMode` does once the driver is initialised and the pin is in range:
the gate is the `PinMode` member of the stored record. -/
theorem Port_SetPinMode_unfold (PortCfg_Pins : List Port_PinConfigType) (Pin Mode : Nat)
    (st : PortDriver) (r : Port_PinConfigType) (hinit : st.PortInitState ≠ 0)
    (hpin : Pin < Pincount) (hr : PortCfg_Pins[Pin]? = some r) :
    Port_SetPinMode PortCfg_Pins Pin Mode st =
      if r.PinMode = 0 then some st
      else (Port_Deploy_pin { r with PinMode := Mode } st.hw).map
        (fun hw1 => { st with hw := hw1 }) := by
  have hpin2 : ¬ Pin ≥ Pincount := by omega
  unfold Port_SetPinMode
  simp only [hinit, hpin2, hr, if_false]
  split
  · rfl
  · cases Port_Deploy_pin { r with PinMode := Mode } st.hw <;> rfl

/-- C6 (the code at the failing inputs): initialised driver, pin 0 in range.
With the stored record in digital I/O mode and its mode-changeable flag set,
`Port_SetPinMode` makes no hardware call, although deploying the overridden record
would make three. With the stored record in analog mode and its mode-changeable flag
clear, `Port_SetPinMode` redeploys the pin. -/
theorem Port_SetPinMode_gate_is_PinMode :
    (PortCfg_Pins_modeFlagSet[0]?.map (fun r => (r.PinMode, r.ModeChangeable)) = some (0, 1) ∧
      Port_SetPinMode PortCfg_Pins_modeFlagSet 0 PORT_PIN_MODE_PWM PortDriver_initialized
        = some PortDriver_initialized ∧
      (Port_Deploy_pin { PortCfg_Pins_src_0 with ModeChangeable := 1, PinMode := PORT_PIN_MODE_PWM }
        PortDriver_initialized.hw).map (fun h => h.calls.length) = some 3) ∧
    (PortCfg_Pins_adcFixed[0]?.map (fun r => (r.PinMode, r.ModeChangeable)) = some (1, 0) ∧
      (Port_SetPinMode PortCfg_Pins_adcFixed 0 PORT_PIN_MODE_DIO PortDriver_initialized).map
        (fun st => st.hw.calls) =
        some [HwCall.ClockCmd GPIO_Port.GPIOC,
          HwCall.Init GPIO_Port.GPIOC ⟨0x2000, 2, some GPIOMode_TypeDef.GPIO_Mode_Out_PP⟩,
          HwCall.WriteBit GPIO_Port.GPIOC 0x2000 1]) := by
  decide

/-- C7: `Port_SetPinDirection` returns with the driver state and the hardware exactly as
they were when the driver is uninitialised, when the pin index is `Pincount` or more, or
when the stored record's direction-changeable flag is zero. -/
theorem Port_SetPinDirection_noop (PortCfg_Pins : List Port_PinConfigType)
    (Pin Direction : Nat) (st : PortDriver)
    (h : st.PortInitState = 0 ∨ Pincount ≤ Pin ∨
      ∃ r, PortCfg_Pins[Pin]? = some r ∧ r.DirectionChangeable = 0) :
    Port_SetPinDirection PortCfg_Pins Pin Direction st = some st := by
  unfold Port_SetPinDirection
  by_cases h0 : st.PortInitState = 0
  · simp [h0]
  · by_cases h1 : Pin ≥ Pincount
    · simp [h0, h1]
    · rcases h with h | h | ⟨r, hr, hflag⟩
      · exact absurd h h0
      · exact absurd h h1
      · simp [h0, h1, hr, hflag]

/-- C7, in each of the three situations: before initialisation, pin 64, and pin 0 of
the table of `Port_Cfg.c` (direction-changeable flag zero) after initialisation. -/
theorem Port_SetPinDirection_noop_witness :
    ((PortDriver_uninitialized.PortInitState = 0 ∨ Pincount ≤ 0 ∨
        ∃ r, PortCfg_Pins_src[0]? = some r ∧ r.DirectionChangeable = 0) ∧
      Port_SetPinDirection PortCfg_Pins_src 0 PORT_PIN_IN PortDriver_uninitialized
        = some PortDriver_uninitialized) ∧
    ((PortDriver_initialized.PortInitState = 0 ∨ Pincount ≤ 64 ∨
        ∃ r, PortCfg_Pins_src[64]? = some r ∧ r.DirectionChangeable = 0) ∧
      Port_SetPinDirection PortCfg_Pins_src 64 PORT_PIN_IN PortDriver_initialized
        = some PortDriver_initialized) ∧
    ((PortDriver_initialized.PortInitState = 0 ∨ Pincount ≤ 0 ∨
        ∃ r, PortCfg_Pins_src[0]? = some r ∧ r.DirectionChangeable = 0) ∧
      Port_SetPinDirection PortCfg_Pins_src 0 PORT_PIN_IN PortDriver_initialized
        = some PortDriver_initialized) :=
  ⟨⟨Or.inl rfl, Port_SetPinDirection_noop PortCfg_Pins_src 0 PORT_PIN_IN
      PortDriver_uninitialized (Or.inl rfl)⟩,
    ⟨Or.inr (Or.inl (by decide)), Port_SetPinDirection_noop PortCfg_Pins_src 64 PORT_PIN_IN
      PortDriver_initialized (Or.inr (Or.inl (by decide)))⟩,
    ⟨Or.inr (Or.inr ⟨PortCfg_Pins_src_0, rfl, rfl⟩),
      Port_SetPinDirection_noop PortCfg_Pins_src 0 PORT_PIN_IN PortDriver_initialized
        (Or.inr (Or.inr ⟨PortCfg_Pins_src_0, rfl, rfl⟩))⟩⟩

/-- In an initialised driver linked with a table of exactly `Pincount` records,
`Port_RefreshPortDirection` reads `PortCfg_Pins[Pincount]`, one element past the end. -/
theorem Port_RefreshPortDirection_reads_past_end (PortCfg_Pins : List Port_PinConfigType)
    (st : PortDriver) (hlen : PortCfg_Pins.length = Pincount) (hinit : st.PortInitState ≠ 0) :
    Port_RefreshPortDirection PortCfg_Pins st = none := by
  have hnone : PortCfg_Pins[Pincount]? = none := by
    rw [List.getElem?_eq_none_iff]; omega
  have h64 : Pincount = 63 + 1 := rfl
  unfold Port_RefreshPortDirection
  simp only [hinit, if_false]
  rw [h64, Port_RefreshPortDirection_loop]
  rw [hnone]

/-- When the flag found at `PortCfg_Pins[Pincount]` is non-zero, the loop of
`Port_RefreshPortDirection` deploys no pin, whatever the flags of the pins are. -/
theorem Port_RefreshPortDirection_loop_flag_set (PortCfg_Pins : List Port_PinConfigType)
    (q : Port_PinConfigType) (hq : PortCfg_Pins[Pincount]? = some q)
    (hflag : q.DirectionChangeable ≠ 0) (n i : Nat) (hw : Mcu) :
    Port_RefreshPortDirection_loop PortCfg_Pins n i hw = some hw := by
  induction n generalizing i with
  | zero => rfl
  | succ n ih =>
    rw [Port_RefreshPortDirection_loop]
    simp only [hq, hflag, if_false]
    exact ih (i + 1)

/-- C8 (the code at the failing input): initialised driver, table of `Port_Cfg.c`, whose
64 records all have direction-changeable flag zero. The flag tested is that of
`PortCfg_Pins[Pincount]`, past the end of the table: the call is an out-of-bounds read
and deploys nothing; and when the memory behind the table holds a non-zero flag, the
call deploys none of the 64 pins. -/
theorem Port_RefreshPortDirection_tests_fixed_element :
    (PortCfg_Pins_src.length = Pincount ∧
      PortCfg_Pins_src.all (fun r => r.DirectionChangeable == 0) = true) ∧
    Port_RefreshPortDirection PortCfg_Pins_src PortDriver_initialized = none ∧
    Port_RefreshPortDirection PortCfg_Pins_src_then_flag1 PortDriver_initialized
      = some PortDriver_initialized := by
  decide

/-! ## Group read followed by group write -/

/-- What `Dio_ReadChannelGroup` returns for a non-null descriptor whose `port` member
`DIO_GET_PORT_ID` maps to the block `p`. -/
theorem Dio_ReadChannelGroup_resolved (g : Dio_ChannelGroupType) (hw : Mcu) (p : GPIO_Port)
    (hp : DIO_GET_PORT_ID (toUint8 g.port) = some p) :
    Dio_ReadChannelGroup (some g) hw =
      some (toUint16 ((hw.ODR16 p &&& toUint8 g.mask) >>> toUint8 g.offset)) := by
  simp [Dio_ReadChannelGroup, hp, GPIO_ReadOutputData, Mcu.ODR16]

/-- Function `Dio_ReadChannelGroup` returns `STD_LOW` when `DIO_GET_PORT_ID` yields
`NULL_PTR`. -/
theorem Dio_ReadChannelGroup_unresolved (g : Dio_ChannelGroupType) (hw : Mcu)
    (hp : DIO_GET_PORT_ID (toUint8 g.port) = none) :
    Dio_ReadChannelGroup (some g) hw = some STD_LOW := by
  simp [Dio_ReadChannelGroup, hp]

/-- Writing back the group value just read rebuilds the port word, as soon as the mask
has no bit below the offset. -/
theorem groupWord_readback (v m off : Nat) (hv : v < 65536)
    (hlow : ∀ j : Nat, j < off → m.testBit j = false) :
    toUint16 (toUint16 (toUint16 (v &&& cNot m) |||
        ((toUint16 ((v &&& m) >>> off) <<< off) &&& m))) = v := by
  apply Nat.eq_of_testBit_eq
  intro k
  simp only [testBit_toUint16, Nat.testBit_or, Nat.testBit_and, testBit_cNot,
    Nat.testBit_shiftLeft, Nat.testBit_shiftRight]
  by_cases h16 : k < 16
  · have h32 : k < 32 := by omega
    by_cases hm : m.testBit k = true
    · have hk : off ≤ k := by
        by_contra hlt
        have := hlow k (by omega)
        rw [hm] at this
        exact Bool.noConfusion this
      have h1 : off + (k - off) = k := by omega
      have h2 : k - off < 16 := by omega
      have h3 : k ≥ off := hk
      simp [h16, h32, hm, h1, h2, h3]
    · have hm2 : m.testBit k = false := by simpa using hm
      simp [h16, h32, hm2]
  · have hvk : v.testBit k = false := testBit_of_lt_65536 hv (by omega)
    simp [h16, hvk]

/-- C11: for a group descriptor whose offset is the position of the least-significant set
bit of its mask and whose port resolves, writing the group with the value just read
leaves the output word and the input word of every port as they were; a port whose
output register holds a 16-bit value keeps its registers exactly. -/
theorem Dio_WriteChannelGroup_readback (g : Dio_ChannelGroupType) (hw : Mcu)
    (p : GPIO_Port) (hinv : g.offsetIsLsb)
    (hp : DIO_GET_PORT_ID (toUint8 g.port) = some p) :
    ∃ (level : Nat) (hw1 : Mcu),
      Dio_ReadChannelGroup (some g) hw = some level ∧
      Dio_WriteChannelGroup (some g) level hw = some hw1 ∧
      (∀ q : GPIO_Port, hw1.ODR16 q = hw.ODR16 q ∧ (hw1.port q).IDR = (hw.port q).IDR) ∧
      (∀ q : GPIO_Port, (hw.port q).ODR < 65536 → hw1.port q = hw.port q) := by
  have hword := groupWord_readback (hw.ODR16 p) (toUint8 g.mask) (toUint8 g.offset)
    (toUint16_lt _) hinv.2
  refine ⟨_, _, Dio_ReadChannelGroup_resolved g hw p hp,
    Dio_WriteChannelGroup_resolved g _ hw p hp, ?_, ?_⟩
  · intro q
    rw [Mcu.ODR16_storeODR, Mcu.port_storeODR, hword]
    by_cases hq : q = p
    · subst hq
      rw [if_pos rfl, if_pos rfl]
      exact ⟨toUint16_of_lt (toUint16_lt _), rfl⟩
    · simp [hq]
  · intro q hq16
    rw [Mcu.port_storeODR, hword]
    by_cases hq : q = p
    · subst hq
      simp only [if_true]
      have h1 : hw.ODR16 q = (hw.port q).ODR := toUint16_of_lt hq16
      rw [h1]
    · simp [hq]

/-- C11, for the group of mask `0xF0`, offset 4 on port A, every output register
holding `0x1234`. -/
theorem Dio_WriteChannelGroup_readback_witness :
    (Dio_ChannelGroupType.offsetIsLsb ⟨0xF0, 4, 0⟩ ∧
      DIO_GET_PORT_ID (toUint8 0) = some GPIO_Port.GPIOA) ∧
    ∃ (level : Nat) (hw1 : Mcu),
      Dio_ReadChannelGroup (some ⟨0xF0, 4, 0⟩) Mcu_1234 = some level ∧
      Dio_WriteChannelGroup (some ⟨0xF0, 4, 0⟩) level Mcu_1234 = some hw1 ∧
      (∀ q : GPIO_Port, hw1.ODR16 q = Mcu_1234.ODR16 q ∧
        (hw1.port q).IDR = (Mcu_1234.port q).IDR) ∧
      (∀ q : GPIO_Port, (Mcu_1234.port q).ODR < 65536 → hw1.port q = Mcu_1234.port q) :=
  ⟨⟨⟨by decide, by decide⟩, by decide⟩,
    Dio_WriteChannelGroup_readback ⟨0xF0, 4, 0⟩ Mcu_1234 GPIO_Port.GPIOA
      ⟨by decide, by decide⟩ (by decide)⟩

/-! ## The resolver is a bijection -/

theorem DIO_GET_PIN_NUM_eq_pow (i : Nat) : DIO_GET_PIN_NUM i = 2 ^ (i % 16) := by
  unfold DIO_GET_PIN_NUM
  rw [Nat.shiftLeft_eq, Nat.one_mul]

/-- Two channels below 64 with the same port and the same pin mask are the same channel. -/
theorem Dio_resolver_injective (i j : Nat) (hi : i < 64) (hj : j < 64)
    (hport : DIO_GET_PORT_ID i = DIO_GET_PORT_ID j)
    (hpin : DIO_GET_PIN_NUM i = DIO_GET_PIN_NUM j) : i = j := by
  obtain ⟨p, hp, hpi⟩ := DIO_GET_PORT_ID_of_lt i hi
  obtain ⟨q, hq, hqj⟩ := DIO_GET_PORT_ID_of_lt j hj
  rw [hp, hq] at hport
  have hpq : p = q := Option.some.inj hport
  have hdiv : i / 16 = j / 16 := by rw [← hpi, ← hqj, hpq]
  rw [DIO_GET_PIN_NUM_eq_pow, DIO_GET_PIN_NUM_eq_pow] at hpin
  have hmod : i % 16 = j % 16 := Nat.pow_right_injective (le_refl 2) hpin
  omega

/-- The channel `16 * port + bit` resolves to that port and that bit. -/
theorem Dio_resolver_of_port_bit (p : GPIO_Port) (b : Nat) (hb : b < 16) :
    16 * p.index + b < 64 ∧ DIO_GET_PORT_ID (16 * p.index + b) = some p ∧
      DIO_GET_PIN_NUM (16 * p.index + b) = 1 <<< b := by
  have hmod : (16 * p.index + b) % 16 = b := by omega
  refine ⟨?_, ?_, ?_⟩
  · cases p <;> simp only [GPIO_Port.index] <;> omega
  · have hlt : 16 * p.index + b < 64 := by cases p <;> simp only [GPIO_Port.index] <;> omega
    obtain ⟨q, hq, hqi⟩ := DIO_GET_PORT_ID_of_lt _ hlt
    have : q.index = p.index := by rw [hqi]; omega
    rw [hq, GPIO_Port.eq_of_index_eq this]
  · unfold DIO_GET_PIN_NUM
    rw [hmod]

/-- C12: on the channel identifiers 0..63 the resolver is a bijection onto the pairs of a
port A..D and a bit position 0..15: two valid identifiers with the same port and pin mask
are equal, and the pair (port, bit) is the image of the identifier `16 * port + bit` and
of no other valid identifier. -/
theorem Dio_resolver_bijection :
    (∀ i j : Nat, i < 64 → j < 64 → DIO_GET_PORT_ID i = DIO_GET_PORT_ID j →
      DIO_GET_PIN_NUM i = DIO_GET_PIN_NUM j → i = j) ∧
    (∀ (p : GPIO_Port) (b : Nat), b < 16 →
      16 * p.index + b < 64 ∧
      DIO_GET_PORT_ID (16 * p.index + b) = some p ∧
      DIO_GET_PIN_NUM (16 * p.index + b) = 1 <<< b ∧
      ∀ i : Nat, i < 64 → DIO_GET_PORT_ID i = some p → DIO_GET_PIN_NUM i = 1 <<< b →
        i = 16 * p.index + b) ∧
    (∀ i : Nat, i < 64 → ∃ (p : GPIO_Port) (b : Nat), b < 16 ∧
      DIO_GET_PORT_ID i = some p ∧ DIO_GET_PIN_NUM i = 1 <<< b ∧ i = 16 * p.index + b) := by
  refine ⟨Dio_resolver_injective, ?_, ?_⟩
  · intro p b hb
    obtain ⟨h1, h2, h3⟩ := Dio_resolver_of_port_bit p b hb
    refine ⟨h1, h2, h3, ?_⟩
    intro i hi hip hin
    exact Dio_resolver_injective i _ hi h1 (hip.trans h2.symm) (hin.trans h3.symm)
  · intro i hi
    obtain ⟨p, hp, hpi⟩ := DIO_GET_PORT_ID_of_lt i hi
    refine ⟨p, i % 16, Nat.mod_lt _ (by norm_num), hp, rfl, ?_⟩
    rw [hpi]
    omega

/-! ## Null descriptor and unresolvable port -/

/-- C13 (the code at the failing input): for the group descriptor of mask `0xFF`,
offset 0 and port identifier 4, with port A holding `0x00AA`, `Dio_ReadChannelGroup`
returns `0xAA` and `Dio_WriteChannelGroup` with level `0x55` changes the output register
of port A to `0x0055`; the null descriptor and the port identifier 64 give `STD_LOW` and
no change. -/
theorem Dio_ChannelGroup_port4_hits_portA :
    (DIO_GET_PORT_ID (toUint8 4) = some GPIO_Port.GPIOA ∧
      Dio_ReadChannelGroup (some ⟨0xFF, 0, 4⟩) Mcu_distinct = some 0xAA ∧
      (Dio_WriteChannelGroup (some ⟨0xFF, 0, 4⟩) 0x55 Mcu_distinct).map
        (fun h => (h.A.ODR, h.B.ODR, h.C.ODR, h.D.ODR)) = some (0x0055, 0x0055, 0x0F0F, 0xF0F0) ∧
      Mcu_distinct.A.ODR = 0x00AA) ∧
    (Dio_ReadChannelGroup none Mcu_distinct = some STD_LOW ∧
      Dio_WriteChannelGroup none 0x55 Mcu_distinct = some Mcu_distinct ∧
      Dio_ReadChannelGroup (some ⟨0xFF, 0, 64⟩) Mcu_distinct = some STD_LOW ∧
      Dio_WriteChannelGroup (some ⟨0xFF, 0, 64⟩) 0x55 Mcu_distinct = some Mcu_distinct) := by
  decide

/-! ## Port read -/

theorem toUint16_toUint16 (x : Nat) : toUint16 (toUint16 x) = toUint16 x :=
  toUint16_of_lt (toUint16_lt x)

/-- With the development error detection compiled out, `Dio_ReadPort` hands `NULL_PTR`
to `GPIO_ReadOutputData` for a port identifier above 3. -/
theorem Dio_ReadPort_no_detection_invalid (MAX_DIO_PORT PortId : Nat) (hw : Mcu)
    (h : 4 ≤ PortId) : Dio_ReadPort false MAX_DIO_PORT PortId hw = none := by
  match PortId, h with
  | n + 4, _ => simp [Dio_ReadPort, GPIO_ReadOutputData]

/-- C14: with the development error detection compiled in (`DIO_DEV_ERROR_DETECT ==
STD_ON`) and `MAX_DIO_PORT` equal to 4, `Dio_ReadPort` on a port identifier outside 0..3
reports `DIO_E_PARAM_INVALID_PORT_ID` and returns `STD_LOW` whatever the registers hold,
and on a port identifier 0..3 it reports nothing and returns the output word of that
port. -/
theorem Dio_ReadPort_detection (DIO_DEV_ERROR_DETECT : Bool) (MAX_DIO_PORT PortId : Nat)
    (hw : Mcu) (hdet : DIO_DEV_ERROR_DETECT = true) (hmax : MAX_DIO_PORT = 4) :
    (4 ≤ PortId → ∀ hw2 : Mcu, Dio_ReadPort DIO_DEV_ERROR_DETECT MAX_DIO_PORT PortId hw2 =
        some (STD_LOW, [Det_Report.DIO_E_PARAM_INVALID_PORT_ID])) ∧
    (PortId < 4 → ∃ p : GPIO_Port, p.index = PortId ∧
        Dio_ReadPort DIO_DEV_ERROR_DETECT MAX_DIO_PORT PortId hw = some (hw.ODR16 p, [])) := by
  subst hdet hmax
  constructor
  · intro h hw2
    have h4 : PortId ≥ 4 := h
    simp [Dio_ReadPort, h4]
  · intro h
    have hcases : PortId = 0 ∨ PortId = 1 ∨ PortId = 2 ∨ PortId = 3 := by omega
    rcases hcases with h0 | h0 | h0 | h0
    · exact ⟨.GPIOA, h0.symm, by
        subst h0; simp [Dio_ReadPort, GPIO_ReadOutputData, Mcu.ODR16, toUint16_toUint16]⟩
    · exact ⟨.GPIOB, h0.symm, by
        subst h0; simp [Dio_ReadPort, GPIO_ReadOutputData, Mcu.ODR16, toUint16_toUint16]⟩
    · exact ⟨.GPIOC, h0.symm, by
        subst h0; simp [Dio_ReadPort, GPIO_ReadOutputData, Mcu.ODR16, toUint16_toUint16]⟩
    · exact ⟨.GPIOD, h0.symm, by
        subst h0; simp [Dio_ReadPort, GPIO_ReadOutputData, Mcu.ODR16, toUint16_toUint16]⟩

/-- C14, at the invalid port identifier 7 and at port C (identifier 2) holding `0x0F0F`. -/
theorem Dio_ReadPort_detection_witness :
    (true = true ∧ 4 = 4) ∧
    ((4 ≤ 7 → ∀ hw2 : Mcu, Dio_ReadPort true 4 7 hw2 =
        some (STD_LOW, [Det_Report.DIO_E_PARAM_INVALID_PORT_ID])) ∧
      (7 < 4 → ∃ p : GPIO_Port, p.index = 7 ∧
        Dio_ReadPort true 4 7 Mcu_distinct = some (Mcu_distinct.ODR16 p, []))) ∧
    ((4 ≤ 2 → ∀ hw2 : Mcu, Dio_ReadPort true 4 2 hw2 =
        some (STD_LOW, [Det_Report.DIO_E_PARAM_INVALID_PORT_ID])) ∧
      (2 < 4 → ∃ p : GPIO_Port, p.index = 2 ∧
        Dio_ReadPort true 4 2 Mcu_distinct = some (Mcu_distinct.ODR16 p, []))) ∧
    (Dio_ReadPort true 4 2 Mcu_distinct = some (0x0F0F, []) ∧
      Dio_ReadPort true 4 7 Mcu_distinct =
        some (STD_LOW, [Det_Report.DIO_E_PARAM_INVALID_PORT_ID])) :=
  ⟨⟨rfl, rfl⟩, Dio_ReadPort_detection true 4 7 Mcu_distinct rfl rfl,
    Dio_ReadPort_detection true 4 2 Mcu_distinct rfl rfl, by decide⟩

/-! ## Channel identifiers from 64 on -/

/-- For a channel identifier from 64 on, `Dio_ReadChannel` hands `NULL_PTR` to
`GPIO_ReadInputDataBit`. -/
theorem Dio_ReadChannel_of_ge (i : Nat) (hw : Mcu) (hi : 64 ≤ i) :
    Dio_ReadChannel i hw = none := by
  simp [Dio_ReadChannel, DIO_GET_PORT_ID_of_ge i hi, GPIO_ReadInputDataBit]

/-- For a channel identifier from 64 on, `Dio_WriteChannel` hands `NULL_PTR` to
`GPIO_WriteBit` when the level is `STD_HIGH` or `STD_LOW`. -/
theorem Dio_WriteChannel_of_ge (i v : Nat) (hw : Mcu) (hi : 64 ≤ i)
    (hv : v = STD_HIGH ∨ v = STD_LOW) : Dio_WriteChannel i v hw = none := by
  rcases hv with h | h <;>
    simp [Dio_WriteChannel, DIO_GET_PORT_ID_of_ge i hi, GPIO_WriteBit, h, STD_HIGH, STD_LOW]

/-- C15 (the code at the failing input): for channel 64 the resolver yields `NULL_PTR`;
`Dio_ReadChannel` passes it to `GPIO_ReadInputDataBit`, and `Dio_WriteChannel` with
`STD_HIGH` or `STD_LOW` passes it to `GPIO_WriteBit`: register accesses through the null
pointer, with no defined result. Only a level other than the two constants is a no-op. -/
theorem Dio_channel_64_null_access :
    DIO_GET_PORT_ID 64 = none ∧
    Dio_ReadChannel 64 Mcu_reset = none ∧
    Dio_ReadChannel 64 Mcu_reset ≠ some STD_LOW ∧
    Dio_WriteChannel 64 STD_HIGH Mcu_reset = none ∧
    Dio_WriteChannel 64 STD_LOW Mcu_reset = none ∧
    Dio_WriteChannel 64 2 Mcu_reset = some Mcu_reset := by
  decide

/-! ## Port driver: deployment of one pin -/

/-- What `GPIO_WriteBit` does on a non-null handle. -/
theorem GPIO_WriteBit_some (p : GPIO_Port) (GPIO_Pin BitVal : Nat) (hw : Mcu) :
    GPIO_WriteBit (some p) GPIO_Pin BitVal hw =
      some (hw.storeODR p
        (if BitVal = Bit_RESET then (hw.port p).ODR ^^^ ((hw.port p).ODR &&& GPIO_Pin)
          else (hw.port p).ODR ||| GPIO_Pin)
        (.WriteBit p GPIO_Pin BitVal)) := by
  unfold GPIO_WriteBit
  split_ifs <;> rfl

/-- Function `Port_Deploy_pin` returns at the `default:` label, with no hardware call, for
a port identifier above 3. -/
theorem Port_Deploy_pin_invalid (r : Port_PinConfigType) (hw : Mcu) (h : 4 ≤ r.PortID) :
    Port_Deploy_pin r hw = some hw := by
  obtain ⟨PortID, PinID, PinMode, Direction, Speed, Pull, Level, DC, MC⟩ := r
  match PortID, h with
  | n + 4, _ => simp [Port_Deploy_pin]

/-- What `Port_Deploy_pin` does for a record whose port identifier names the block `p`:
clock enable, `GPIO_Init` with the pin mask, the speed and the selected mode, then the
level write when the direction is output. -/
theorem Port_Deploy_pin_valid (r : Port_PinConfigType) (hw : Mcu) (p : GPIO_Port)
    (hp : PORT_GET_ID r.PortID = some p) :
    Port_Deploy_pin r hw =
      if r.Direction = PORT_PIN_OUT then
        GPIO_WriteBit (some p) (toUint16 (PORT_GET_PIN_NUM r.PinID))
          (if r.Level = PORT_PIN_LEVEL_HIGH then PORT_PIN_LEVEL_HIGH else PORT_PIN_LEVEL_LOW)
          { hw with calls := (hw.calls ++ [.ClockCmd p]) ++
              [.Init p ⟨toUint16 (PORT_GET_PIN_NUM r.PinID), r.Speed, Port_Deploy_pin_mode r⟩] }
      else
        some { hw with calls := (hw.calls ++ [.ClockCmd p]) ++
              [.Init p ⟨toUint16 (PORT_GET_PIN_NUM r.PinID), r.Speed, Port_Deploy_pin_mode r⟩] } := by
  obtain ⟨PortID, PinID, PinMode, Direction, Speed, Pull, Level, DC, MC⟩ := r
  simp only at hp ⊢
  unfold PORT_GET_ID at hp
  split_ifs at hp with h0 h1 h2 h3
  all_goals
    cases hp
    subst_vars
    simp only [Port_Deploy_pin, RCC_APB2PeriphClockCmd, GPIO_Init, PORT_GET_ID]
    split_ifs <;> simp_all

/-- Macro `PORT_GET_ID` yields the block numbered `PortID` for a port identifier 0..3. -/
theorem PORT_GET_ID_of_lt (PortID : Nat) (h : PortID < 4) :
    ∃ p : GPIO_Port, PORT_GET_ID PortID = some p ∧ p.index = PortID := by
  have hcases : PortID = 0 ∨ PortID = 1 ∨ PortID = 2 ∨ PortID = 3 := by omega
  rcases hcases with h0 | h0 | h0 | h0 <;> subst h0
  · exact ⟨.GPIOA, rfl, rfl⟩
  · exact ⟨.GPIOB, rfl, rfl⟩
  · exact ⟨.GPIOC, rfl, rfl⟩
  · exact ⟨.GPIOD, rfl, rfl⟩

/-- Macro `PORT_GET_ID` yields `NULL_PTR` exactly for the port identifiers above 3. -/
theorem PORT_GET_ID_eq_none (PortID : Nat) (h : PORT_GET_ID PortID = none) : 4 ≤ PortID := by
  by_contra hlt
  obtain ⟨p, hp, _⟩ := PORT_GET_ID_of_lt PortID (by omega)
  rw [hp] at h
  exact Option.noConfusion h

/-- Function `Port_Deploy_pin` always returns: it never hands `NULL_PTR` to a primitive. -/
theorem Port_Deploy_pin_total (r : Port_PinConfigType) (hw : Mcu) :
    ∃ hw1 : Mcu, Port_Deploy_pin r hw = some hw1 := by
  cases hp : PORT_GET_ID r.PortID with
  | none => exact ⟨hw, Port_Deploy_pin_invalid r hw (PORT_GET_ID_eq_none _ hp)⟩
  | some p =>
    rw [Port_Deploy_pin_valid r hw p hp]
    by_cases hdir : r.Direction = PORT_PIN_OUT
    · rw [if_pos hdir, GPIO_WriteBit_some]; exact ⟨_, rfl⟩
    · rw [if_neg hdir]; exact ⟨_, rfl⟩

/-- What `Port_SetPinDirection` does once the driver is initialised and the pin is in
range: the gate is the `DirectionChangeable` member of the stored record, and the record
deployed is the stored record with the direction overridden. -/
theorem Port_SetPinDirection_unfold (PortCfg_Pins : List Port_PinConfigType)
    (Pin Direction : Nat) (st : PortDriver) (r : Port_PinConfigType)
    (hinit : st.PortInitState ≠ 0) (hpin : Pin < Pincount) (hr : PortCfg_Pins[Pin]? = some r) :
    Port_SetPinDirection PortCfg_Pins Pin Direction st =
      if r.DirectionChangeable = 0 then some st
      else (Port_Deploy_pin { r with Direction := Direction } st.hw).map
        (fun hw1 => { st with hw := hw1 }) := by
  have hpin2 : ¬ Pin ≥ Pincount := by omega
  unfold Port_SetPinDirection
  simp only [hinit, hpin2, hr, if_false]
  split
  · rfl
  · cases Port_Deploy_pin { r with Direction := Direction } st.hw <;> rfl

/-! ## Port driver: runtime direction change -/

/-- C16: in an initialised driver, for a pin in range whose stored record has a non-zero
direction-changeable flag, `Port_SetPinDirection` with direction `d1` is one call of
`Port_Deploy_pin` on the stored record with the direction member replaced by `d1` and all
other members kept; the table is read only, so a following `Port_SetPinDirection` with
direction `d2` again deploys the stored record with the direction replaced by `d2`, the
record the call alone deploys. -/
theorem Port_SetPinDirection_deploys_override (PortCfg_Pins : List Port_PinConfigType)
    (Pin d1 d2 : Nat) (st : PortDriver) (r : Port_PinConfigType)
    (hinit : st.PortInitState ≠ 0) (hpin : Pin < Pincount)
    (hr : PortCfg_Pins[Pin]? = some r) (hflag : r.DirectionChangeable ≠ 0) :
    ∃ hw1 hw2 hw3 : Mcu,
      Port_Deploy_pin ⟨r.PortID, r.PinID, r.PinMode, d1, r.Speed, r.Pull, r.Level,
        r.DirectionChangeable, r.ModeChangeable⟩ st.hw = some hw1 ∧
      Port_SetPinDirection PortCfg_Pins Pin d1 st = some ⟨st.PortInitState, hw1⟩ ∧
      Port_Deploy_pin ⟨r.PortID, r.PinID, r.PinMode, d2, r.Speed, r.Pull, r.Level,
        r.DirectionChangeable, r.ModeChangeable⟩ hw1 = some hw2 ∧
      Port_SetPinDirection PortCfg_Pins Pin d2 ⟨st.PortInitState, hw1⟩
        = some ⟨st.PortInitState, hw2⟩ ∧
      Port_Deploy_pin ⟨r.PortID, r.PinID, r.PinMode, d2, r.Speed, r.Pull, r.Level,
        r.DirectionChangeable, r.ModeChangeable⟩ st.hw = some hw3 ∧
      Port_SetPinDirection PortCfg_Pins Pin d2 st = some ⟨st.PortInitState, hw3⟩ := by
  obtain ⟨hw1, h1⟩ := Port_Deploy_pin_total { r with Direction := d1 } st.hw
  obtain ⟨hw2, h2⟩ := Port_Deploy_pin_total { r with Direction := d2 } hw1
  obtain ⟨hw3, h3⟩ := Port_Deploy_pin_total { r with Direction := d2 } st.hw
  refine ⟨hw1, hw2, hw3, h1, ?_, h2, ?_, h3, ?_⟩
  · rw [Port_SetPinDirection_unfold PortCfg_Pins Pin d1 st r hinit hpin hr, if_neg hflag, h1]
    rfl
  · rw [Port_SetPinDirection_unfold PortCfg_Pins Pin d2 ⟨st.PortInitState, hw1⟩ r hinit hpin hr,
      if_neg hflag]
    simp only [h2]
    rfl
  · rw [Port_SetPinDirection_unfold PortCfg_Pins Pin d2 st r hinit hpin hr, if_neg hflag, h3]
    rfl

/-- C16, on pin 0 of a table whose first record has the direction-changeable flag set,
changing the direction to input and then back to output. -/
theorem Port_SetPinDirection_deploys_override_witness :
    (PortDriver_initialized.PortInitState ≠ 0 ∧ 0 < Pincount ∧
      PortCfg_Pins_dirFlagSet[0]? = some { PortCfg_Pins_src_0 with DirectionChangeable := 1 } ∧
      ({ PortCfg_Pins_src_0 with DirectionChangeable := 1 } : Port_PinConfigType).DirectionChangeable
        ≠ 0) ∧
    ∃ hw1 hw2 hw3 : Mcu,
      Port_Deploy_pin ⟨2, 45, PORT_PIN_MODE_DIO, PORT_PIN_IN, GPIO_Speed_2MHz, PULL_UP,
        PORT_PIN_LEVEL_HIGH, 1, 0⟩ PortDriver_initialized.hw = some hw1 ∧
      Port_SetPinDirection PortCfg_Pins_dirFlagSet 0 PORT_PIN_IN PortDriver_initialized
        = some ⟨PortDriver_initialized.PortInitState, hw1⟩ ∧
      Port_Deploy_pin ⟨2, 45, PORT_PIN_MODE_DIO, PORT_PIN_OUT, GPIO_Speed_2MHz, PULL_UP,
        PORT_PIN_LEVEL_HIGH, 1, 0⟩ hw1 = some hw2 ∧
      Port_SetPinDirection PortCfg_Pins_dirFlagSet 0 PORT_PIN_OUT
        ⟨PortDriver_initialized.PortInitState, hw1⟩
        = some ⟨PortDriver_initialized.PortInitState, hw2⟩ ∧
      Port_Deploy_pin ⟨2, 45, PORT_PIN_MODE_DIO, PORT_PIN_OUT, GPIO_Speed_2MHz, PULL_UP,
        PORT_PIN_LEVEL_HIGH, 1, 0⟩ PortDriver_initialized.hw = some hw3 ∧
      Port_SetPinDirection PortCfg_Pins_dirFlagSet 0 PORT_PIN_OUT PortDriver_initialized
        = some ⟨PortDriver_initialized.PortInitState, hw3⟩ :=
  ⟨⟨by decide, by decide, rfl, by decide⟩,
    Port_SetPinDirection_deploys_override PortCfg_Pins_dirFlagSet 0 PORT_PIN_IN PORT_PIN_OUT
      PortDriver_initialized { PortCfg_Pins_src_0 with DirectionChangeable := 1 }
      (by decide) (by decide) rfl (by decide)⟩

/-! ## Port driver: what a deployment applies -/

theorem Mcu.calls_storeODR (hw : Mcu) (p : GPIO_Port) (v : Nat) (c : HwCall) :
    (hw.storeODR p v c).calls = hw.calls ++ [c] := by
  cases p <;> rfl

theorem Mcu.port_with_calls (hw : Mcu) (l : List HwCall) (q : GPIO_Port) :
    ({ hw with calls := l } : Mcu).port q = hw.port q := by
  cases q <;> rfl

theorem toUint16_PORT_GET_PIN_NUM (Pin : Nat) :
    toUint16 (PORT_GET_PIN_NUM Pin) = 1 <<< (Pin % 16) := by
  have h : Pin % 16 < 16 := Nat.mod_lt _ (by norm_num)
  have h2 : 2 ^ (Pin % 16) < 2 ^ 16 := Nat.pow_lt_pow_right (by norm_num) h
  unfold PORT_GET_PIN_NUM
  rw [Nat.shiftLeft_eq, Nat.one_mul]
  exact toUint16_of_lt (by norm_num at h2 ⊢; exact h2)

/-- Bits of an output register after a set or clear of the single bit `n`. -/
theorem testBit_writeBit (x n BitVal k : Nat) :
    (if BitVal = Bit_RESET then x ^^^ (x &&& 1 <<< n) else x ||| 1 <<< n).testBit k =
      if k = n then decide (BitVal ≠ Bit_RESET) else x.testBit k := by
  rw [Nat.shiftLeft_eq, Nat.one_mul]
  by_cases hb : BitVal = Bit_RESET
  · by_cases hk : k = n
    · subst hk
      simp [hb, Nat.testBit_xor, Nat.testBit_and, Nat.testBit_two_pow_self]
    · have hk2 : ¬ (n = k) := fun h => hk h.symm
      simp [hb, hk, hk2, Nat.testBit_xor, Nat.testBit_and, Nat.testBit_two_pow]
  · by_cases hk : k = n
    · subst hk
      simp [hb, Nat.testBit_or, Nat.testBit_two_pow_self]
    · have hk2 : ¬ (n = k) := fun h => hk h.symm
      simp [hb, hk, hk2, Nat.testBit_or, Nat.testBit_two_pow]

/-- The mode selection of `Port_Deploy_pin` follows the reference table for a digital
I/O record with a direction and a pull among the defined constants. -/
theorem Port_Deploy_pin_mode_eq_spec (r : Port_PinConfigType)
    (hmode : r.PinMode = PORT_PIN_MODE_DIO)
    (hpull : r.Pull = PULL_UP ∨ r.Pull = PULL_DOWN)
    (hdir : r.Direction = PORT_PIN_OUT ∨ r.Direction = PORT_PIN_IN) :
    Port_Deploy_pin_mode r = some (ElectricalMode_spec r.Direction r.Pull) := by
  unfold Port_Deploy_pin_mode ElectricalMode_spec
  rcases hpull with hp | hp <;> rcases hdir with hd | hd <;>
    simp [hmode, hp, hd, PORT_PIN_IN, PORT_PIN_OUT, PULL_UP, PULL_DOWN]

/-- C19: for a record with a port identifier 0..3, mode digital I/O, a pull of up or down
and a direction of in or out, `Port_Deploy_pin` enables the clock of the port, calls
`GPIO_Init` with the pin mask `1 << (PinID % 16)`, the record's speed and the electrical
mode of the reference table, and makes the level write on that pin if and only if the
direction is output: the pin's output bit then is set for level high and cleared
otherwise, and no other register bit changes. -/
theorem Port_Deploy_pin_applies (r : Port_PinConfigType) (hw : Mcu)
    (hport : r.PortID < 4) (hmode : r.PinMode = PORT_PIN_MODE_DIO)
    (hpull : r.Pull = PULL_UP ∨ r.Pull = PULL_DOWN)
    (hdir : r.Direction = PORT_PIN_OUT ∨ r.Direction = PORT_PIN_IN) :
    ∃ (p : GPIO_Port) (hw1 : Mcu), p.index = r.PortID ∧
      Port_Deploy_pin r hw = some hw1 ∧
      hw1.calls = hw.calls ++
        [HwCall.ClockCmd p,
          HwCall.Init p ⟨1 <<< (r.PinID % 16), r.Speed,
            some (ElectricalMode_spec r.Direction r.Pull)⟩] ++
        (if r.Direction = PORT_PIN_OUT then
          [HwCall.WriteBit p (1 <<< (r.PinID % 16))
            (if r.Level = PORT_PIN_LEVEL_HIGH then PORT_PIN_LEVEL_HIGH
              else PORT_PIN_LEVEL_LOW)]
         else []) ∧
      (∀ (q : GPIO_Port) (k : Nat), ((hw1.port q).ODR).testBit k =
        if r.Direction = PORT_PIN_OUT ∧ q = p ∧ k = r.PinID % 16 then
          decide (r.Level = PORT_PIN_LEVEL_HIGH)
        else ((hw.port q).ODR).testBit k) ∧
      (∀ q : GPIO_Port, (hw1.port q).IDR = (hw.port q).IDR) := by
  obtain ⟨p, hp, hidx⟩ := PORT_GET_ID_of_lt r.PortID hport
  have hm := Port_Deploy_pin_mode_eq_spec r hmode hpull hdir
  refine ⟨p, ?_⟩
  rw [Port_Deploy_pin_valid r hw p hp, hm, toUint16_PORT_GET_PIN_NUM]
  by_cases hout : r.Direction = PORT_PIN_OUT
  · rw [if_pos hout, GPIO_WriteBit_some]
    refine ⟨_, hidx, rfl, ?_, ?_, ?_⟩
    · rw [Mcu.calls_storeODR, if_pos hout]
      simp
    · intro q k
      rw [Mcu.port_storeODR]
      simp only [Mcu.port_with_calls]
      by_cases hq : q = p
      · subst hq
        rw [if_pos rfl]
        simp only []
        rw [testBit_writeBit]
        by_cases hk : k = r.PinID % 16
        · by_cases hl : r.Level = PORT_PIN_LEVEL_HIGH
          · simp [hout, hk, hl, PORT_PIN_LEVEL_HIGH, Bit_RESET]
          · simp [hout, hk, hl, PORT_PIN_LEVEL_LOW, Bit_RESET]
        · simp [hk]
      · simp [hq]
    · intro q
      rw [Mcu.port_storeODR]
      simp only [Mcu.port_with_calls]
      by_cases hq : q = p
      · subst hq
        rw [if_pos rfl]
      · rw [if_neg hq]
  · rw [if_neg hout]
    refine ⟨_, hidx, rfl, ?_, ?_, ?_⟩
    · rw [if_neg hout]
      simp
    · intro q k
      rw [Mcu.port_with_calls]
      simp [hout]
    · intro q
      rw [Mcu.port_with_calls]

/-- C19, on the first record of `Port_Cfg.c` (port C, pin 45, output, pull up, level
high) from the all-zero state; the second record (port B, pin 24, input, pull up) makes
no level write. -/
theorem Port_Deploy_pin_applies_witness :
    (PortCfg_Pins_src_0.PortID < 4 ∧ PortCfg_Pins_src_0.PinMode = PORT_PIN_MODE_DIO ∧
      (PortCfg_Pins_src_0.Pull = PULL_UP ∨ PortCfg_Pins_src_0.Pull = PULL_DOWN) ∧
      (PortCfg_Pins_src_0.Direction = PORT_PIN_OUT ∨
        PortCfg_Pins_src_0.Direction = PORT_PIN_IN)) ∧
    (∃ (p : GPIO_Port) (hw1 : Mcu), p.index = PortCfg_Pins_src_0.PortID ∧
      Port_Deploy_pin PortCfg_Pins_src_0 Mcu_reset = some hw1 ∧
      hw1.calls = Mcu_reset.calls ++
        [HwCall.ClockCmd p,
          HwCall.Init p ⟨1 <<< (PortCfg_Pins_src_0.PinID % 16), PortCfg_Pins_src_0.Speed,
            some (ElectricalMode_spec PortCfg_Pins_src_0.Direction PortCfg_Pins_src_0.Pull)⟩] ++
        (if PortCfg_Pins_src_0.Direction = PORT_PIN_OUT then
          [HwCall.WriteBit p (1 <<< (PortCfg_Pins_src_0.PinID % 16))
            (if PortCfg_Pins_src_0.Level = PORT_PIN_LEVEL_HIGH then PORT_PIN_LEVEL_HIGH
              else PORT_PIN_LEVEL_LOW)]
         else []) ∧
      (∀ (q : GPIO_Port) (k : Nat), ((hw1.port q).ODR).testBit k =
        if PortCfg_Pins_src_0.Direction = PORT_PIN_OUT ∧ q = p ∧
            k = PortCfg_Pins_src_0.PinID % 16 then
          decide (PortCfg_Pins_src_0.Level = PORT_PIN_LEVEL_HIGH)
        else ((Mcu_reset.port q).ODR).testBit k) ∧
      (∀ q : GPIO_Port, (hw1.port q).IDR = (Mcu_reset.port q).IDR)) ∧
    Port_Deploy_pin PortCfg_Pins_src_0 Mcu_reset =
      some ⟨⟨0, 0⟩, ⟨0, 0⟩, ⟨0, 0x2000⟩, ⟨0, 0⟩,
        [HwCall.ClockCmd GPIO_Port.GPIOC,
          HwCall.Init GPIO_Port.GPIOC ⟨0x2000, 2, some GPIOMode_TypeDef.GPIO_Mode_Out_PP⟩,
          HwCall.WriteBit GPIO_Port.GPIOC 0x2000 1]⟩ ∧
    Port_Deploy_pin PortCfg_Pins_src_1 Mcu_reset =
      some ⟨⟨0, 0⟩, ⟨0, 0⟩, ⟨0, 0⟩, ⟨0, 0⟩,
        [HwCall.ClockCmd GPIO_Port.GPIOB,
          HwCall.Init GPIO_Port.GPIOB ⟨0x0100, 2, some GPIOMode_TypeDef.GPIO_Mode_IPU⟩]⟩ :=
  ⟨by decide,
    Port_Deploy_pin_applies PortCfg_Pins_src_0 Mcu_reset (by decide) (by decide) (by decide)
      (by decide),
    by decide, by decide⟩

/-! ## Port driver: the deployment pass -/

/-- The reference deployment pass always returns. -/
theorem DeployAll_spec_total (l : List Port_PinConfigType) (hw : Mcu) :
    ∃ hw1 : Mcu, DeployAll_spec l hw = some hw1 := by
  induction l generalizing hw with
  | nil => exact ⟨hw, rfl⟩
  | cons r rs ih =>
    obtain ⟨hw1, h1⟩ := Port_Deploy_pin_total r hw
    obtain ⟨hw2, h2⟩ := ih hw1
    exact ⟨hw2, by simp only [DeployAll_spec, h1, h2]⟩

/-- The loop of `Port_Init`, started at index `i` with the remaining `n` entries of the
array, is the reference deployment pass over these entries. -/
theorem Port_Init_loop_eq_spec (l : List Port_PinConfigType) (n i : Nat) (hw : Mcu)
    (h : i + n = l.length) :
    Port_Init_loop l n i hw = DeployAll_spec (l.drop i) hw := by
  induction n generalizing i hw with
  | zero =>
    have hi : l.length ≤ i := by omega
    rw [List.drop_eq_nil_of_le hi]
    rfl
  | succ n ih =>
    have hi : i < l.length := by omega
    rw [List.drop_eq_getElem_cons hi, Port_Init_loop, List.getElem?_eq_getElem hi]
    simp only [DeployAll_spec]
    cases hd : Port_Deploy_pin l[i] hw with
    | none => rfl
    | some hw1 => exact ih (i + 1) hw1 (by omega)

/-- C20: for a configuration whose count is the number of entries of its table,
`Port_Init` returns, the hardware is the one the reference pass produces by deploying
the entries 0, 1, .. in table order, each once, and the driver is initialised
(`PortInitState = 1`); for a null pointer `Port_Init` returns the driver state and the
hardware exactly as they were. -/
theorem Port_Init_eq_spec (cfg : Port_ConfigType) (st : PortDriver)
    (hn : cfg.PortCfg_PinsCount = cfg.PinCfgType.length) :
    (∃ hw1 : Mcu, DeployAll_spec cfg.PinCfgType st.hw = some hw1 ∧
      Port_Init (some cfg) st = some ⟨1, hw1⟩) ∧
    Port_Init none st = some st := by
  refine ⟨?_, rfl⟩
  obtain ⟨hw1, h1⟩ := DeployAll_spec_total cfg.PinCfgType st.hw
  refine ⟨hw1, h1, ?_⟩
  have hloop := Port_Init_loop_eq_spec cfg.PinCfgType cfg.PortCfg_PinsCount 0 st.hw
    (by omega)
  rw [List.drop_zero, h1] at hloop
  simp only [Port_Init, hloop]

/-- C20, on the configuration made of the two records of `Port_Cfg.c`, from the driver
before initialisation: port C is deployed first, then port B. -/
theorem Port_Init_eq_spec_witness :
    Port_ConfigType_two.PortCfg_PinsCount = Port_ConfigType_two.PinCfgType.length ∧
    ((∃ hw1 : Mcu,
        DeployAll_spec Port_ConfigType_two.PinCfgType PortDriver_uninitialized.hw = some hw1 ∧
        Port_Init (some Port_ConfigType_two) PortDriver_uninitialized = some ⟨1, hw1⟩) ∧
      Port_Init none PortDriver_uninitialized = some PortDriver_uninitialized) ∧
    (Port_Init (some Port_ConfigType_two) PortDriver_uninitialized).map
      (fun st => (st.PortInitState, st.hw.calls)) =
      some (1, [HwCall.ClockCmd GPIO_Port.GPIOC,
        HwCall.Init GPIO_Port.GPIOC ⟨0x2000, 2, some GPIOMode_TypeDef.GPIO_Mode_Out_PP⟩,
        HwCall.WriteBit GPIO_Port.GPIOC 0x2000 1,
        HwCall.ClockCmd GPIO_Port.GPIOB,
        HwCall.Init GPIO_Port.GPIOB ⟨0x0100, 2, some GPIOMode_TypeDef.GPIO_Mode_IPU⟩]) :=
  ⟨by decide, Port_Init_eq_spec Port_ConfigType_two PortDriver_uninitialized (by decide),
    by decide⟩

/-! ## Channel write, read and flip -/

theorem toUint16_DIO_GET_PIN_NUM_shift (i : Nat) :
    toUint16 (DIO_GET_PIN_NUM i) = 1 <<< (i % 16) := by
  rw [toUint16_DIO_GET_PIN_NUM, Nat.shiftLeft_eq, Nat.one_mul]

/-- A word has no bit in common with the single bit `n` exactly when its bit `n` is clear. -/
theorem and_one_shiftLeft_eq_zero_iff (x n : Nat) :
    x &&& 1 <<< n = 0 ↔ x.testBit n = false := by
  rw [Nat.shiftLeft_eq, Nat.one_mul]
  constructor
  · intro h
    have h1 : (x &&& 2 ^ n).testBit n = x.testBit n := by
      simp [Nat.testBit_and, Nat.testBit_two_pow_self]
    rw [h] at h1
    rw [← h1]
    exact Nat.zero_testBit n
  · intro h
    apply Nat.eq_of_testBit_eq
    intro k
    rw [Nat.testBit_and, Nat.testBit_two_pow, Nat.zero_testBit]
    by_cases hk : n = k
    · subst hk; simp [h]
    · simp [hk]

/-- What `Dio_ReadChannel` returns for a channel on block `p`: the level of bit
`ChannelId % 16` of the input data register. -/
theorem Dio_ReadChannel_resolved (i : Nat) (hw : Mcu) (p : GPIO_Port)
    (hp : DIO_GET_PORT_ID i = some p) :
    Dio_ReadChannel i hw =
      some (if ((hw.port p).IDR).testBit (i % 16) = true then STD_HIGH else STD_LOW) := by
  unfold Dio_ReadChannel
  simp only [hp, GPIO_ReadInputDataBit, toUint16_DIO_GET_PIN_NUM_shift]
  by_cases hb : ((hw.port p).IDR).testBit (i % 16) = true
  · have hne : ¬ ((hw.port p).IDR &&& 1 <<< (i % 16) = 0) := by
      rw [and_one_shiftLeft_eq_zero_iff, hb]; exact Bool.noConfusion
    simp [hne, hb]
  · have hb2 : ((hw.port p).IDR).testBit (i % 16) = false := by simpa using hb
    have he : (hw.port p).IDR &&& 1 <<< (i % 16) = 0 :=
      (and_one_shiftLeft_eq_zero_iff _ _).2 hb2
    simp [he, hb2, Bit_RESET, Bit_SET]

/-- What `Dio_WriteChannel` does, bit by bit, for a channel on block `p` and one of the
two level constants. -/
theorem Dio_WriteChannel_bits (i v : Nat) (hw : Mcu) (p : GPIO_Port)
    (hp : DIO_GET_PORT_ID i = some p) (hv : v = STD_LOW ∨ v = STD_HIGH) :
    ∃ hw1 : Mcu, Dio_WriteChannel i v hw = some hw1 ∧
      (∀ (q : GPIO_Port) (k : Nat), ((hw1.port q).ODR).testBit k =
        if q = p ∧ k = i % 16 then decide (v = STD_HIGH)
        else ((hw.port q).ODR).testBit k) ∧
      (∀ q : GPIO_Port, (hw1.port q).IDR = (hw.port q).IDR) := by
  have hwr : Dio_WriteChannel i v hw =
      GPIO_WriteBit (some p) (1 <<< (i % 16)) (if v = STD_HIGH then Bit_SET else Bit_RESET) hw := by
    unfold Dio_WriteChannel
    simp only [hp, toUint16_DIO_GET_PIN_NUM_shift]
    rcases hv with h | h <;> simp [h, STD_LOW, STD_HIGH]
  rw [hwr, GPIO_WriteBit_some]
  refine ⟨_, rfl, ?_, ?_⟩
  · intro q k
    rw [Mcu.port_storeODR]
    by_cases hq : q = p
    · subst hq
      rw [if_pos rfl]
      simp only []
      rw [testBit_writeBit]
      by_cases hk : k = i % 16
      · rcases hv with h | h <;> simp [hk, h, STD_LOW, STD_HIGH, Bit_SET, Bit_RESET]
      · simp [hk]
    · simp [hq]
  · intro q
    rw [Mcu.port_storeODR]
    by_cases hq : q = p
    · subst hq; rw [if_pos rfl]
    · rw [if_neg hq]

/-- C17: for a channel below 64 and a level `STD_LOW` or `STD_HIGH`, `Dio_WriteChannel`
returns, and `Dio_ReadChannel` in any later state whose output register on the channel's
port is the one just written and whose input word mirrors it returns that level. -/
theorem Dio_WriteChannel_then_ReadChannel (i L : Nat) (hw : Mcu) (hi : i < 64)
    (hL : L = STD_LOW ∨ L = STD_HIGH) :
    ∃ hw1 : Mcu, Dio_WriteChannel i L hw = some hw1 ∧
      ∀ (hw2 : Mcu) (p : GPIO_Port), DIO_GET_PORT_ID i = some p →
        (hw2.port p).ODR = (hw1.port p).ODR → hw2.inputMirrorsOutput p →
        Dio_ReadChannel i hw2 = some L := by
  obtain ⟨p, hp, _⟩ := DIO_GET_PORT_ID_of_lt i hi
  obtain ⟨hw1, hw1eq, hbits, _⟩ := Dio_WriteChannel_bits i L hw p hp hL
  refine ⟨hw1, hw1eq, ?_⟩
  intro hw2 p2 hp2 hsame hmirror
  have hpp : p2 = p := Option.some.inj (hp2.symm.trans hp)
  subst hpp
  rw [Dio_ReadChannel_resolved i hw2 p2 hp2]
  unfold Mcu.inputMirrorsOutput at hmirror
  rw [hmirror, hsame, hbits p2 (i % 16)]
  rcases hL with h | h <;> simp [h, STD_LOW, STD_HIGH]

/-- C17, for channel 45 and both levels from the all-zero state, read in the state
just written with the input words made equal to the output registers. -/
theorem Dio_WriteChannel_then_ReadChannel_witness :
    (45 < 64 ∧ (STD_HIGH = STD_LOW ∨ STD_HIGH = STD_HIGH)) ∧
    (∃ hw1 : Mcu, Dio_WriteChannel 45 STD_HIGH Mcu_reset = some hw1 ∧
      ∀ (hw2 : Mcu) (p : GPIO_Port), DIO_GET_PORT_ID 45 = some p →
        (hw2.port p).ODR = (hw1.port p).ODR → hw2.inputMirrorsOutput p →
        Dio_ReadChannel 45 hw2 = some STD_HIGH) ∧
    (Dio_WriteChannel 45 STD_HIGH Mcu_reset = some
        ⟨⟨0, 0⟩, ⟨0, 0⟩, ⟨0, 0x2000⟩, ⟨0, 0⟩,
          [HwCall.WriteBit GPIO_Port.GPIOC 0x2000 Bit_SET]⟩ ∧
      Dio_ReadChannel 45 ⟨⟨0, 0⟩, ⟨0, 0⟩, ⟨0x2000, 0x2000⟩, ⟨0, 0⟩,
          [HwCall.WriteBit GPIO_Port.GPIOC 0x2000 Bit_SET]⟩ = some STD_HIGH) :=
  ⟨by decide, Dio_WriteChannel_then_ReadChannel 45 STD_HIGH Mcu_reset (by decide) (by decide),
    by decide⟩

/-- What `Dio_FlipChannel` does for a channel on block `p`: it writes and returns the
complement of the level `Dio_ReadChannel` gives. -/
theorem Dio_FlipChannel_resolved (i : Nat) (hw : Mcu) (p : GPIO_Port)
    (hp : DIO_GET_PORT_ID i = some p) :
    ∃ v0 : Nat, (v0 = STD_LOW ∨ v0 = STD_HIGH) ∧
      v0 = (if ((hw.port p).IDR).testBit (i % 16) = true then STD_HIGH else STD_LOW) ∧
      Dio_ReadChannel i hw = some v0 ∧
      Dio_FlipChannel i hw =
        (Dio_WriteChannel i (Level_complement v0) hw).map
          (fun hw1 => (Level_complement v0, hw1)) := by
  have hr := Dio_ReadChannel_resolved i hw p hp
  by_cases hb : ((hw.port p).IDR).testBit (i % 16) = true
  · rw [if_pos hb] at hr
    refine ⟨STD_HIGH, Or.inr rfl, by rw [if_pos hb], hr, ?_⟩
    unfold Dio_FlipChannel
    rw [hr]
    have h1 : ¬ (STD_HIGH = STD_LOW) := by decide
    have h2 : Level_complement STD_HIGH = STD_LOW := by decide
    simp only [h1, if_false, if_true, h2]
    cases Dio_WriteChannel i STD_LOW hw <;> rfl
  · rw [if_neg hb] at hr
    refine ⟨STD_LOW, Or.inl rfl, by rw [if_neg hb], hr, ?_⟩
    unfold Dio_FlipChannel
    rw [hr]
    have h2 : Level_complement STD_LOW = STD_HIGH := by decide
    simp only [if_true, h2]
    cases Dio_WriteChannel i STD_HIGH hw <;> rfl

theorem Level_complement_cases (v : Nat) (hv : v = STD_LOW ∨ v = STD_HIGH) :
    (Level_complement v = STD_LOW ∨ Level_complement v = STD_HIGH) ∧
      Level_complement (Level_complement v) = v ∧
      (decide (Level_complement v = STD_HIGH) = !decide (v = STD_HIGH)) := by
  rcases hv with h | h <;> subst h <;> decide

/-- C18: for a channel below 64 whose port's input word mirrors its output register,
`Dio_FlipChannel` returns the complement of the level `Dio_ReadChannel` gives just
before; and in any state reached with no other write (same output registers) in which
the input word mirrors the output register again, a second `Dio_FlipChannel` returns the
complement of what `Dio_ReadChannel` then gives, which is the original level, and leaves
the output register of every port equal to its original value. -/
theorem Dio_FlipChannel_twice (i : Nat) (hw : Mcu) (hi : i < 64)
    (hm : ∀ p : GPIO_Port, DIO_GET_PORT_ID i = some p → hw.inputMirrorsOutput p) :
    ∃ (v0 v1 : Nat) (hw1 : Mcu),
      Dio_ReadChannel i hw = some v0 ∧
      Dio_FlipChannel i hw = some (v1, hw1) ∧
      v1 = Level_complement v0 ∧
      ∀ hw1b : Mcu,
        (∀ q : GPIO_Port, (hw1b.port q).ODR = (hw1.port q).ODR) →
        (∀ p : GPIO_Port, DIO_GET_PORT_ID i = some p → hw1b.inputMirrorsOutput p) →
        ∃ hw2 : Mcu,
          Dio_ReadChannel i hw1b = some v1 ∧
          Dio_FlipChannel i hw1b = some (v0, hw2) ∧
          v0 = Level_complement v1 ∧
          ∀ q : GPIO_Port, (hw2.port q).ODR = (hw.port q).ODR := by
  obtain ⟨p, hp, _⟩ := DIO_GET_PORT_ID_of_lt i hi
  obtain ⟨v0, hv0, hv0eq, hread, hflip⟩ := Dio_FlipChannel_resolved i hw p hp
  obtain ⟨hc1, hcc, hdec⟩ := Level_complement_cases v0 hv0
  obtain ⟨hw1, hw1eq, hbits1, _⟩ :=
    Dio_WriteChannel_bits i (Level_complement v0) hw p hp hc1
  refine ⟨v0, Level_complement v0, hw1, hread, by rw [hflip, hw1eq]; rfl, rfl, ?_⟩
  intro hw1b hsame hmb
  obtain ⟨w0, hw0, hw0eq, hreadb, hflipb⟩ := Dio_FlipChannel_resolved i hw1b p hp
  have hmirror := hm p hp
  have hmirrorb := hmb p hp
  unfold Mcu.inputMirrorsOutput at hmirror hmirrorb
  have hbit0 : ((hw.port p).ODR).testBit (i % 16) = decide (v0 = STD_HIGH) := by
    rw [← hmirror, hv0eq]
    by_cases hb : ((hw.port p).IDR).testBit (i % 16) = true
    · simp [hb, STD_HIGH]
    · have hb2 : ((hw.port p).IDR).testBit (i % 16) = false := by simpa using hb
      simp [hb2, STD_LOW, STD_HIGH]
  have hbit1 : ((hw1b.port p).IDR).testBit (i % 16) =
      decide (Level_complement v0 = STD_HIGH) := by
    rw [hmirrorb, hsame p, hbits1 p (i % 16)]
    simp
  have hw0v : w0 = Level_complement v0 := by
    rw [hw0eq, hbit1]
    rcases hc1 with h | h <;> rw [h] <;> decide
  subst hw0v
  rw [hcc] at hflipb
  obtain ⟨hw2, hw2eq, hbits2, _⟩ := Dio_WriteChannel_bits i v0 hw1b p hp hv0
  refine ⟨hw2, hreadb, by rw [hflipb, hw2eq]; rfl, hcc.symm, ?_⟩
  intro q
  apply Nat.eq_of_testBit_eq
  intro k
  rw [hbits2 q k]
  by_cases hqk : q = p ∧ k = i % 16
  · rw [if_pos hqk, hqk.1, hqk.2, hbit0]
  · rw [if_neg hqk, hsame q, hbits1 q k, if_neg hqk]

/-- C18, for channel 45 (port C, bit 13) in a state whose input words equal the output
registers, port C holding `0x0F0F`: the first flip returns high and gives `0x2F0F`, the
second, with the input word following, returns low and gives `0x0F0F` back. -/
theorem Dio_FlipChannel_twice_witness :
    (45 < 64 ∧
      ∀ p : GPIO_Port, DIO_GET_PORT_ID 45 = some p → Mcu_mirrored.inputMirrorsOutput p) ∧
    (∃ (v0 v1 : Nat) (hw1 : Mcu),
      Dio_ReadChannel 45 Mcu_mirrored = some v0 ∧
      Dio_FlipChannel 45 Mcu_mirrored = some (v1, hw1) ∧
      v1 = Level_complement v0 ∧
      ∀ hw1b : Mcu,
        (∀ q : GPIO_Port, (hw1b.port q).ODR = (hw1.port q).ODR) →
        (∀ p : GPIO_Port, DIO_GET_PORT_ID 45 = some p → hw1b.inputMirrorsOutput p) →
        ∃ hw2 : Mcu,
          Dio_ReadChannel 45 hw1b = some v1 ∧
          Dio_FlipChannel 45 hw1b = some (v0, hw2) ∧
          v0 = Level_complement v1 ∧
          ∀ q : GPIO_Port, (hw2.port q).ODR = (Mcu_mirrored.port q).ODR) ∧
    ((Dio_FlipChannel 45 Mcu_mirrored).map (fun r => (r.1, r.2.C.ODR)) =
        some (STD_HIGH, 0x2F0F) ∧
      (Dio_FlipChannel 45
          ⟨⟨0x00AA, 0x00AA⟩, ⟨0x0055, 0x0055⟩, ⟨0x2F0F, 0x2F0F⟩, ⟨0xF0F0, 0xF0F0⟩, []⟩).map
        (fun r => (r.1, r.2.A.ODR, r.2.B.ODR, r.2.C.ODR, r.2.D.ODR)) =
        some (STD_LOW, 0x00AA, 0x0055, 0x0F0F, 0xF0F0)) :=
  ⟨⟨by decide, fun p _ => by cases p <;> rfl⟩,
    Dio_FlipChannel_twice 45 Mcu_mirrored (by decide) (fun p _ => by cases p <;> rfl),
    by decide⟩

/-! ## Port driver: invalid port identifier -/

/-- C21: for a record whose port identifier is 4 or more, whatever its other members
are, `Port_Deploy_pin` returns with the hardware exactly as it was: the registers and the
list of hardware calls are unchanged, so no clock enable, no `GPIO_Init` and no level
write was made. -/
theorem Port_Deploy_pin_invalid_port_no_effect
    (PortID PinID PinMode Direction Speed Pull Level DirectionChangeable ModeChangeable : Nat)
    (hw : Mcu) (h : 4 ≤ PortID) :
    ∃ hw1 : Mcu,
      Port_Deploy_pin ⟨PortID, PinID, PinMode, Direction, Speed, Pull, Level,
        DirectionChangeable, ModeChangeable⟩ hw = some hw1 ∧
      hw1.calls = hw.calls ∧ (∀ q : GPIO_Port, hw1.port q = hw.port q) ∧ hw1 = hw :=
  ⟨hw, Port_Deploy_pin_invalid _ hw h, rfl, fun _ => rfl, rfl⟩

/-- C21, on a record like the first one of `Port_Cfg.c` (output, level high) but with
port identifier 4, in the state whose output registers hold `0x1234`. -/
theorem Port_Deploy_pin_invalid_port_no_effect_witness :
    4 ≤ 4 ∧
    ∃ hw1 : Mcu,
      Port_Deploy_pin ⟨4, 45, PORT_PIN_MODE_DIO, PORT_PIN_OUT, GPIO_Speed_2MHz, PULL_UP,
        PORT_PIN_LEVEL_HIGH, 0, 0⟩ Mcu_1234 = some hw1 ∧
      hw1.calls = Mcu_1234.calls ∧ (∀ q : GPIO_Port, hw1.port q = Mcu_1234.port q) ∧
      hw1 = Mcu_1234 :=
  ⟨by decide, Port_Deploy_pin_invalid_port_no_effect 4 45 PORT_PIN_MODE_DIO PORT_PIN_OUT
    GPIO_Speed_2MHz PULL_UP PORT_PIN_LEVEL_HIGH 0 0 Mcu_1234 (by decide)⟩

/-! ## Group access stays in the low byte -/

theorem toUint8_lt (x : Nat) : toUint8 x < 256 := by
  unfold toUint8; omega

/-- The group value `Dio_ReadChannelGroup` computes fits in 8 bits. -/
theorem groupValue_le (v mask offset : Nat) :
    toUint16 ((v &&& toUint8 mask) >>> toUint8 offset) ≤ 0xFF := by
  have h1 : v &&& toUint8 mask ≤ toUint8 mask := Nat.and_le_right
  have h2 : (v &&& toUint8 mask) >>> toUint8 offset ≤ v &&& toUint8 mask := by
    rw [Nat.shiftRight_eq_div_pow]
    exact Nat.div_le_self _ _
  have h3 := toUint8_lt mask
  have h4 : (v &&& toUint8 mask) >>> toUint8 offset < 65536 := by omega
  rw [toUint16_of_lt h4]
  omega

/-- C24: the mask of a group descriptor is held in 8 bits, so for every descriptor (null
pointer included), every level and every register state `Dio_WriteChannelGroup` returns
and leaves every bit from position 8 on of every port's output word as it was, and
`Dio_ReadChannelGroup` returns a value of at most `0xFF`. -/
theorem Dio_ChannelGroup_low_byte (ChannelGroupIdPtr : Option Dio_ChannelGroupType)
    (Level : Nat) (hw : Mcu) :
    (∃ hw1 : Mcu, Dio_WriteChannelGroup ChannelGroupIdPtr Level hw = some hw1 ∧
      ∀ (q : GPIO_Port) (k : Nat), 8 ≤ k →
        (hw1.ODR16 q).testBit k = (hw.ODR16 q).testBit k) ∧
    (∃ value : Nat, Dio_ReadChannelGroup ChannelGroupIdPtr hw = some value ∧
      value ≤ 0xFF) := by
  cases ChannelGroupIdPtr with
  | none => exact ⟨⟨hw, rfl, fun _ _ _ => rfl⟩, ⟨STD_LOW, rfl, by decide⟩⟩
  | some g =>
    cases hp : DIO_GET_PORT_ID (toUint8 g.port) with
    | none =>
      exact ⟨⟨hw, Dio_WriteChannelGroup_unresolved g Level hw hp, fun _ _ _ => rfl⟩,
        ⟨STD_LOW, Dio_ReadChannelGroup_unresolved g hw hp, by decide⟩⟩
    | some p =>
      refine ⟨⟨_, Dio_WriteChannelGroup_resolved g Level hw p hp, ?_⟩,
        ⟨_, Dio_ReadChannelGroup_resolved g hw p hp, groupValue_le _ _ _⟩⟩
      intro q k hk
      rw [Mcu.ODR16_storeODR]
      by_cases hq : q = p
      · subst hq
        rw [if_pos rfl]
        have h8 : ¬ k < 8 := by omega
        have hlt : hw.ODR16 q < 65536 := toUint16_lt _
        by_cases h16 : k < 16
        · have h32 : k < 32 := by omega
          simp [testBit_toUint16, testBit_cNot, testBit_toUint8, h8, h16, h32]
        · simp [testBit_toUint16, h16, testBit_of_lt_65536 hlt (Nat.le_of_not_lt h16)]
      · rw [if_neg hq]

/-! ## The initialisation flag -/

/-- Function `Port_SetPinDirection` does not write `PortInitState`. -/
theorem Port_SetPinDirection_flag (PortCfg_Pins : List Port_PinConfigType)
    (Pin Direction : Nat) (st st1 : PortDriver)
    (h : Port_SetPinDirection PortCfg_Pins Pin Direction st = some st1) :
    st1.PortInitState = st.PortInitState := by
  unfold Port_SetPinDirection at h
  by_cases h0 : st.PortInitState = 0
  · simp only [h0, if_true] at h; rw [← Option.some.inj h]
  · by_cases h1 : Pin ≥ Pincount
    · simp only [h0, h1, if_true, if_false] at h; rw [← Option.some.inj h]
    · cases hr : PortCfg_Pins[Pin]? with
      | none => simp only [h0, h1, hr, if_false] at h; cases h
      | some r =>
        by_cases hf : r.DirectionChangeable = 0
        · simp only [h0, h1, hr, hf, if_true, if_false] at h; rw [← Option.some.inj h]
        · cases hd : Port_Deploy_pin { r with Direction := Direction } st.hw with
          | none => simp only [h0, h1, hr, hf, hd, if_false] at h; cases h
          | some hw1 =>
            simp only [h0, h1, hr, hf, hd, if_false] at h; rw [← Option.some.inj h]

/-- Function `Port_SetPinMode` does not write `PortInitState`. -/
theorem Port_SetPinMode_flag (PortCfg_Pins : List Port_PinConfigType)
    (Pin Mode : Nat) (st st1 : PortDriver)
    (h : Port_SetPinMode PortCfg_Pins Pin Mode st = some st1) :
    st1.PortInitState = st.PortInitState := by
  unfold Port_SetPinMode at h
  by_cases h0 : st.PortInitState = 0
  · simp only [h0, if_true] at h; rw [← Option.some.inj h]
  · by_cases h1 : Pin ≥ Pincount
    · simp only [h0, h1, if_true, if_false] at h; rw [← Option.some.inj h]
    · cases hr : PortCfg_Pins[Pin]? with
      | none => simp only [h0, h1, hr, if_false] at h; cases h
      | some r =>
        by_cases hf : r.PinMode = 0
        · simp only [h0, h1, hr, hf, if_true, if_false] at h; rw [← Option.some.inj h]
        · cases hd : Port_Deploy_pin { r with PinMode := Mode } st.hw with
          | none => simp only [h0, h1, hr, hf, hd, if_false] at h; cases h
          | some hw1 =>
            simp only [h0, h1, hr, hf, hd, if_false] at h; rw [← Option.some.inj h]

/-- Function `Port_RefreshPortDirection` does not write `PortInitState`. -/
theorem Port_RefreshPortDirection_flag (PortCfg_Pins : List Port_PinConfigType)
    (st st1 : PortDriver) (h : Port_RefreshPortDirection PortCfg_Pins st = some st1) :
    st1.PortInitState = st.PortInitState := by
  unfold Port_RefreshPortDirection at h
  by_cases h0 : st.PortInitState = 0
  · simp only [h0, if_true] at h; rw [← Option.some.inj h]
  · cases hl : Port_RefreshPortDirection_loop PortCfg_Pins Pincount 0 st.hw with
    | none => simp only [h0, hl, if_false] at h; cases h
    | some hw1 => simp only [h0, hl, if_false] at h; rw [← Option.some.inj h]

/-- Function `Port_Init` leaves the state as it is for a null pointer and sets
`PortInitState` to 1 otherwise. -/
theorem Port_Init_flag (ConfigPtr : Option Port_ConfigType) (st st1 : PortDriver)
    (h : Port_Init ConfigPtr st = some st1) :
    (ConfigPtr = none ∧ st1 = st) ∨ (∃ cfg, ConfigPtr = some cfg ∧ st1.PortInitState = 1) := by
  cases ConfigPtr with
  | none =>
    left
    exact ⟨rfl, (Option.some.inj h).symm⟩
  | some cfg =>
    right
    refine ⟨cfg, rfl, ?_⟩
    unfold Port_Init at h
    cases hl : Port_Init_loop cfg.PinCfgType cfg.PortCfg_PinsCount 0 st.hw with
    | none => simp only [hl] at h; cases h
    | some hw1 => simp only [hl] at h; rw [← Option.some.inj h]

/-- One driver call either keeps `PortInitState`, or is `Port_Init` with a non-null
pointer and sets it to 1. -/
theorem runDriverOp_flag (PortCfg_Pins : List Port_PinConfigType)
    (DIO_DEV_ERROR_DETECT : Bool) (MAX_DIO_PORT : Nat) (op : DriverOp) (st st1 : PortDriver)
    (h : runDriverOp PortCfg_Pins DIO_DEV_ERROR_DETECT MAX_DIO_PORT op st = some st1) :
    st1.PortInitState = st.PortInitState ∨
      (∃ cfg, op = DriverOp.Port_Init (some cfg) ∧ st1.PortInitState = 1) := by
  cases op with
  | Port_Init ConfigPtr =>
    rcases Port_Init_flag ConfigPtr st st1 h with ⟨_, h1⟩ | ⟨cfg, h1, h2⟩
    · left; rw [h1]
    · right; exact ⟨cfg, by rw [h1], h2⟩
  | Port_SetPinDirection Pin Direction =>
    exact Or.inl (Port_SetPinDirection_flag PortCfg_Pins Pin Direction st st1 h)
  | Port_SetPinMode Pin Mode =>
    exact Or.inl (Port_SetPinMode_flag PortCfg_Pins Pin Mode st st1 h)
  | Port_RefreshPortDirection =>
    exact Or.inl (Port_RefreshPortDirection_flag PortCfg_Pins st st1 h)
  | _ =>
    left
    simp only [runDriverOp, Option.map_eq_some'] at h
    obtain ⟨a, _, rfl⟩ := h
    rfl

/-- C22: the initialised state is absorbing. From any driver state, along any sequence
of calls of `Port_Init` (null pointer or not), `Port_Deploy_pin`, `Port_SetPinDirection`,
`Port_SetPinMode`, `Port_RefreshPortDirection` and the read and write functions of
`Dio.c`, a non-zero `PortInitState` stays non-zero, and `PortInitState` differs at the
end only if the sequence contains a `Port_Init` with a non-null pointer. -/
theorem PortInitState_absorbing (PortCfg_Pins : List Port_PinConfigType)
    (DIO_DEV_ERROR_DETECT : Bool) (MAX_DIO_PORT : Nat) (ops : List DriverOp)
    (st st1 : PortDriver)
    (h : runDriverOps PortCfg_Pins DIO_DEV_ERROR_DETECT MAX_DIO_PORT ops st = some st1) :
    (st.PortInitState ≠ 0 → st1.PortInitState ≠ 0) ∧
    (st1.PortInitState ≠ st.PortInitState →
      ∃ cfg, DriverOp.Port_Init (some cfg) ∈ ops) := by
  induction ops generalizing st with
  | nil =>
    have hst : st1 = st := (Option.some.inj h).symm
    subst hst
    exact ⟨fun h0 => h0, fun hne => absurd rfl hne⟩
  | cons op ops ih =>
    rw [runDriverOps] at h
    cases hstep : runDriverOp PortCfg_Pins DIO_DEV_ERROR_DETECT MAX_DIO_PORT op st with
    | none => rw [hstep] at h; cases h
    | some st2 =>
      rw [hstep] at h
      obtain ⟨ih1, ih2⟩ := ih st2 h
      rcases runDriverOp_flag PortCfg_Pins DIO_DEV_ERROR_DETECT MAX_DIO_PORT op st st2 hstep
        with hkeep | ⟨cfg, hop, hone⟩
      · refine ⟨fun h0 => ih1 (by rw [hkeep]; exact h0), fun hne => ?_⟩
        obtain ⟨cfg, hmem⟩ := ih2 (by rw [hkeep]; exact hne)
        exact ⟨cfg, List.mem_cons_of_mem _ hmem⟩
      · refine ⟨fun _ => ih1 (by rw [hone]; decide), fun _ => ?_⟩
        exact ⟨cfg, by rw [hop]; exact List.mem_cons_self _ _⟩

/-- C22, along `DriverOp_sequence` from the driver before initialisation (the flag
changes, the sequence contains `Port_Init` with a non-null pointer), and along a sequence
without it from the initialised driver (the flag stays set). -/
theorem PortInitState_absorbing_witness :
    (runDriverOps PortCfg_Pins_src true 4 DriverOp_sequence PortDriver_uninitialized
        = some DriverOp_sequence_final ∧
      ((PortDriver_uninitialized.PortInitState ≠ 0 →
          DriverOp_sequence_final.PortInitState ≠ 0) ∧
        (DriverOp_sequence_final.PortInitState ≠ PortDriver_uninitialized.PortInitState →
          ∃ cfg, DriverOp.Port_Init (some cfg) ∈ DriverOp_sequence))) ∧
    (runDriverOps PortCfg_Pins_src true 4
        [DriverOp.Port_Init none, DriverOp.Port_SetPinDirection 0 PORT_PIN_IN,
          DriverOp.Dio_WritePort 9 0, DriverOp.Dio_ReadChannelGroup none]
        PortDriver_initialized = some PortDriver_initialized ∧
      ((PortDriver_initialized.PortInitState ≠ 0 →
          PortDriver_initialized.PortInitState ≠ 0) ∧
        (PortDriver_initialized.PortInitState ≠ PortDriver_initialized.PortInitState →
          ∃ cfg, DriverOp.Port_Init (some cfg) ∈
            [DriverOp.Port_Init none, DriverOp.Port_SetPinDirection 0 PORT_PIN_IN,
              DriverOp.Dio_WritePort 9 0, DriverOp.Dio_ReadChannelGroup none]))) :=
  ⟨⟨by decide, PortInitState_absorbing PortCfg_Pins_src true 4 DriverOp_sequence
      PortDriver_uninitialized DriverOp_sequence_final (by decide)⟩,
    ⟨by decide, PortInitState_absorbing PortCfg_Pins_src true 4 _ PortDriver_initialized
      PortDriver_initialized (by decide)⟩⟩

/-! ## Reads of the configuration table -/

/-- With a table of exactly `Pincount` records, `Port_SetPinDirection` returns: the only
index it reads is `Pin`, after the test `Pin >= Pincount`. -/
theorem Port_SetPinDirection_in_bounds (PortCfg_Pins : List Port_PinConfigType)
    (Pin Direction : Nat) (st : PortDriver) (hlen : PortCfg_Pins.length = Pincount) :
    ∃ st1 : PortDriver, Port_SetPinDirection PortCfg_Pins Pin Direction st = some st1 := by
  by_cases h0 : st.PortInitState = 0
  · exact ⟨st, by simp [Port_SetPinDirection, h0]⟩
  · by_cases h1 : Pin ≥ Pincount
    · exact ⟨st, by simp [Port_SetPinDirection, h0, h1]⟩
    · have hlt : Pin < PortCfg_Pins.length := by omega
      rw [Port_SetPinDirection_unfold PortCfg_Pins Pin Direction st PortCfg_Pins[Pin] h0
        (by omega) (List.getElem?_eq_getElem hlt)]
      split_ifs
      · exact ⟨st, rfl⟩
      · obtain ⟨hw1, h⟩ := Port_Deploy_pin_total
          { PortCfg_Pins[Pin] with Direction := Direction } st.hw
        rw [h]
        exact ⟨_, rfl⟩

/-- With a table of exactly `Pincount` records, `Port_SetPinMode` returns: the only index
it reads is `Pin`, after the test `Pin >= Pincount`. -/
theorem Port_SetPinMode_in_bounds (PortCfg_Pins : List Port_PinConfigType)
    (Pin Mode : Nat) (st : PortDriver) (hlen : PortCfg_Pins.length = Pincount) :
    ∃ st1 : PortDriver, Port_SetPinMode PortCfg_Pins Pin Mode st = some st1 := by
  by_cases h0 : st.PortInitState = 0
  · exact ⟨st, by simp [Port_SetPinMode, h0]⟩
  · by_cases h1 : Pin ≥ Pincount
    · exact ⟨st, by simp [Port_SetPinMode, h0, h1]⟩
    · have hlt : Pin < PortCfg_Pins.length := by omega
      rw [Port_SetPinMode_unfold PortCfg_Pins Pin Mode st PortCfg_Pins[Pin] h0
        (by omega) (List.getElem?_eq_getElem hlt)]
      split_ifs
      · exact ⟨st, rfl⟩
      · obtain ⟨hw1, h⟩ := Port_Deploy_pin_total
          { PortCfg_Pins[Pin] with PinMode := Mode } st.hw
        rw [h]
        exact ⟨_, rfl⟩

/-- C23 (the code at the failing input): initialised driver, the table of `Port_Cfg.c`
with its `Pincount` records, whose indices 0..`Pincount`-1 all hold a record. The first
table read of the loop of `Port_RefreshPortDirection` is at index `Pincount`, where the
table holds nothing: the call is an out-of-range read. `Port_SetPinDirection` and
`Port_SetPinMode` return for the pin indices 63, 64 and 65535. -/
theorem Port_RefreshPortDirection_reads_index_Pincount :
    (PortCfg_Pins_src.length = Pincount ∧
      (∀ i : Nat, i < Pincount → PortCfg_Pins_src[i]?.isSome = true) ∧
      PortCfg_Pins_src[Pincount]? = none) ∧
    (Port_RefreshPortDirection_loop PortCfg_Pins_src Pincount 0 PortDriver_initialized.hw = none ∧
      Port_RefreshPortDirection PortCfg_Pins_src PortDriver_initialized = none) ∧
    ((Port_SetPinDirection PortCfg_Pins_src 63 PORT_PIN_IN PortDriver_initialized).isSome = true ∧
      (Port_SetPinDirection PortCfg_Pins_src 64 PORT_PIN_IN PortDriver_initialized).isSome = true ∧
      (Port_SetPinDirection PortCfg_Pins_src 65535 PORT_PIN_IN PortDriver_initialized).isSome
        = true ∧
      (Port_SetPinMode PortCfg_Pins_src 63 PORT_PIN_MODE_PWM PortDriver_initialized).isSome = true ∧
      (Port_SetPinMode PortCfg_Pins_src 64 PORT_PIN_MODE_PWM PortDriver_initialized).isSome = true ∧
      (Port_SetPinMode PortCfg_Pins_src 65535 PORT_PIN_MODE_PWM PortDriver_initialized).isSome
        = true) := by
  decide
